import Mathlib

/-!
# Animation, texture and camera-projection behaviour of `SceneAsset` and `TCamera`

A shallow embedding of `ios/src/SceneAsset.cpp` (namespace `polyvox`) and of
`Camera_setProjection` from `thermion_dart/native/src/TCamera.cpp` (namespace `thermion`).

Modelling conventions.

* Every read of `high_resolution_clock::now()` is an explicit argument `now`.  A time point is
  a rational number of seconds since the clock epoch (the clock counts nanoseconds), and a
  difference of time points is exact, as the subtraction of the nanosecond counts is.
* A `float` or `double` value is the rational it denotes.  Rounding is explicit where it can
  change a result: `toFloat` and `toDouble` round to the nearest binary32 / binary64 value, ties to
  even, subnormals included.  The exponent range has no upper end in the model; the values
  the code rounds stay far below the overflow thresholds for every reading of the 64-bit
  nanosecond clock.  A division by a zero frame length is not finite and is undefined
  behaviour at the conversion to `int` (`none`).
* An `int` is an integer; an operation whose result leaves the 32-bit range (the conversion
  from `double`, `numFrames - 1`, `frameIndex * numWeights`) is undefined behaviour (`none`).
* `size_t` values are naturals below `2 ^ 64`; the conversions the C++ comparison and the
  vector subscript perform on an `int` are explicit (`toSizeT`).
* An out-of-bounds `std::vector::operator[]` is undefined behaviour and is modelled by `none`.
* Calls on collaborators (animator, renderable manager, engine, resource callbacks) and `Log`
  lines are returned as lists next to the new state.
-/

namespace polyvox

/-- A `high_resolution_clock` time point, in seconds since the clock epoch. -/
abbrev TimePoint := ℚ

/-- Conversion of an `int` to `size_t` (64 bit), as the usual arithmetic conversions and the
subscript of a `std::vector` perform it. -/
def toSizeT (x : Int) : Nat := (x % 2 ^ 64).toNat

/-! ## Floating-point rounding and `int` range -/

/-- Rounding of a rational to the nearest integer, ties to the even one. -/
def roundHalfEven (q : ℚ) : Int :=
  if 2 * (q - ⌊q⌋) < 1 then ⌊q⌋
  else if 1 < 2 * (q - ⌊q⌋) then ⌊q⌋ + 1
  else if ⌊q⌋ % 2 = 0 then ⌊q⌋
  else ⌊q⌋ + 1

/-- Exponent of the binade of `x` in a binary format whose smallest normal exponent is `emin`:
the largest `e` with `2 ^ e <= |x|`, but at least `emin` (the subnormal range). -/
def binadeExponent (emin : Int) (x : ℚ) : Int := max (Int.log 2 |x|) emin

/-- Round-to-nearest, ties-to-even, into the binary format with `p` significand bits and
smallest normal exponent `emin`: `x` is rounded to a multiple of the unit in the last place
of its binade. -/
def roundNearestEven (p : Nat) (emin : Int) (x : ℚ) : ℚ :=
  (roundHalfEven (x / 2 ^ (binadeExponent emin x - ((p : Int) - 1))) : ℚ) *
    2 ^ (binadeExponent emin x - ((p : Int) - 1))

/-- Conversion to `float` (binary32). -/
def toFloat (x : ℚ) : ℚ := roundNearestEven 24 (-126) x

/-- Rounding of an arithmetic result to `double` (binary64). -/
def toDouble (x : ℚ) : ℚ := roundNearestEven 53 (-1022) x

/-- Smallest value of an `int`. -/
def intMin : Int := -2147483648

/-- Largest value of an `int`. -/
def intMax : Int := 2147483647

/-- An integer result that is undefined when it does not fit an `int`. -/
def checkedInt (n : Int) : Option Int :=
  if intMin ≤ n ∧ n ≤ intMax then some n else none

/-- Per-clip playback state, `EmbeddedAnimationStatus` of `SceneAsset.hpp`. -/
structure EmbeddedAnimationStatus where
  animationIndex : Int
  duration : ℚ
  loop : Bool
  play : Bool
  started : Bool
  startedAt : TimePoint
deriving DecidableEq

/-- Modelled from the spec: the constructor `EmbeddedAnimationStatus(index, duration, loop)` is
declared in `SceneAsset.hpp`, which is not part of the sources; a fresh track is neither playing
nor started, and its default-constructed time point is the epoch. -/
def EmbeddedAnimationStatus.new (animationIndex : Int) (duration : ℚ) (loop : Bool) :
    EmbeddedAnimationStatus :=
  { animationIndex := animationIndex, duration := duration, loop := loop,
    play := false, started := false, startedAt := 0 }

/-- State of an in-flight morph animation, `MorphAnimationStatus` of `SceneAsset.hpp`.
`frameData` is the address of the caller's buffer, counted in floats. -/
structure MorphAnimationStatus where
  frameData : Int
  numWeights : Int
  numFrames : Int
  frameLengthInMs : ℚ
  frameIndex : Int
  startTime : TimePoint
deriving DecidableEq

/-- Modelled from the spec: the constructor `MorphAnimationStatus(data, numWeights, numFrames,
frameLengthInMs)` is declared in `SceneAsset.hpp`, which is not part of the sources; the frame
index of a new track is `-1`, meaning "not yet started". -/
def MorphAnimationStatus.new (data : Int) (numWeights numFrames : Int) (frameLengthInMs : ℚ) :
    MorphAnimationStatus :=
  { frameData := data, numWeights := numWeights, numFrames := numFrames,
    frameLengthInMs := frameLengthInMs, frameIndex := -1, startTime := 0 }

/-- The part of `gltfio::Animator` the asset reads: one duration per embedded clip. -/
structure Animator where
  durations : List ℚ
deriving DecidableEq

/-- Value of `getAnimationCount()`, a `size_t`. -/
def Animator.getAnimationCount (animator : Animator) : Nat := animator.durations.length

/-- Value of `getAnimationDuration(i)`. -/
def Animator.getAnimationDuration (animator : Animator) (i : Nat) : ℚ :=
  animator.durations.getD i 0

/-- Calls made on the animator. -/
inductive AnimatorCall where
  | applyAnimation (animationIndex : Int) (time : ℚ)
  | updateBoneMatrices
deriving DecidableEq

/-- A call `rm.setMorphWeights(inst, weights, count)`; `weights` is an address in floats. -/
structure SetMorphWeights where
  entity : Nat
  weights : Int
  count : Int
deriving DecidableEq

/-- A GPU texture built by `Texture::Builder`. -/
structure Texture where
  width : Nat
  height : Nat
  rgb : Bool
deriving DecidableEq

/-- The fields of a `SceneAsset` that the animation and texture code reads and writes. -/
structure SceneAsset where
  _animator : Animator
  entities : List Nat
  _embeddedAnimationStatus : List EmbeddedAnimationStatus
  _morphAnimationBuffer : Option MorphAnimationStatus
  _texture : Option Texture
deriving DecidableEq

/-- The loop of the constructor: one status per clip, pushed in index order. -/
def SceneAsset.initStatuses (animator : Animator) : List EmbeddedAnimationStatus :=
  (List.range animator.getAnimationCount).map
    (fun (i : Nat) => EmbeddedAnimationStatus.new (i : Int) (animator.getAnimationDuration i) false)

/-- The constructor `SceneAsset::SceneAsset`. -/
def SceneAsset.new (animator : Animator) (entities : List Nat) : SceneAsset :=
  { _animator := animator, entities := entities,
    _embeddedAnimationStatus := SceneAsset.initStatuses animator,
    _morphAnimationBuffer := none, _texture := none }

/-! ## Embedded animations -/

/-- Lines written by `Log` in `playAnimation`. -/
inductive PlayLog where
  | playing (index : Int)
  | noSuchAnimation (index : Int)
  | alreadyPlaying
  | starting (index : Int)
deriving DecidableEq

/-- Method `SceneAsset::playAnimation`.  The guard compares `index` with the `size_t` value
`getAnimationCount() - 1`, so both sides are taken modulo `2 ^ 64`. -/
def playAnimation (index : Int) (loop : Bool) (a : SceneAsset) :
    Option (SceneAsset × List PlayLog) :=
  if toSizeT index > toSizeT ((a._animator.getAnimationCount : Int) - 1) then
    some (a, [.playing index, .noSuchAnimation index])
  else
    match a._embeddedAnimationStatus[toSizeT index]? with
    | none => none
    | some status =>
      if status.started then
        some (a, [.playing index, .alreadyPlaying])
      else
        some ({ a with
                _embeddedAnimationStatus :=
                  a._embeddedAnimationStatus.set (toSizeT index)
                    { status with play := true, loop := loop } },
              [.playing index, .starting index])

/-- Method `SceneAsset::stopAnimation`: the vector is subscripted without any guard. -/
def stopAnimation (index : Int) (a : SceneAsset) : Option SceneAsset :=
  match a._embeddedAnimationStatus[toSizeT index]? with
  | none => none
  | some status =>
    some { a with
           _embeddedAnimationStatus :=
             a._embeddedAnimationStatus.set (toSizeT index)
               { status with play := false, started := false } }

/-- Body of the `for` loop of `updateEmbeddedAnimations` for one status: the new status and the
animator calls made for it.  The `double` count `dur.count()` is taken to be the elapsed time
itself: for a nanosecond count below `2 ^ 23` seconds its rounding changes neither the
comparison with the `float` duration nor the narrowing.  The assignment to the `float`
variable `animationTimeOffset` narrows it (`toFloat`). -/
def stepStatus (now : TimePoint) (status : EmbeddedAnimationStatus) :
    EmbeddedAnimationStatus × List AnimatorCall :=
  if status.play = false then
    (status, [])
  else
    let dur : ℚ := now - status.startedAt
    let r : EmbeddedAnimationStatus × ℚ × Bool :=
      if status.started = false then
        ({ status with started := true, startedAt := now }, 0, false)
      else if dur ≥ status.duration then
        if status.loop then
          ({ status with startedAt := now }, 0, false)
        else
          (status, toFloat dur, true)
      else
        (status, toFloat dur, false)
    let status1 := r.1
    let animationTimeOffset := r.2.1
    let finished := r.2.2
    if finished = false then
      (status1, [.applyAnimation status1.animationIndex animationTimeOffset])
    else
      ({ status1 with play := false, started := false }, [])

/-- The `for` loop of `updateEmbeddedAnimations` over the status vector. -/
def updateLoop (now : TimePoint) :
    List EmbeddedAnimationStatus → List EmbeddedAnimationStatus × List AnimatorCall
  | [] => ([], [])
  | status :: rest =>
    let r := stepStatus now status
    let rs := updateLoop now rest
    (r.1 :: rs.1, r.2 ++ rs.2)

/-- Method `SceneAsset::updateEmbeddedAnimations`, with the clock value read at its start. -/
def updateEmbeddedAnimations (now : TimePoint) (a : SceneAsset) :
    SceneAsset × List AnimatorCall :=
  let r := updateLoop now a._embeddedAnimationStatus
  ({ a with _embeddedAnimationStatus := r.1 }, r.2 ++ [.updateBoneMatrices])

/-- Successive calls of `updateEmbeddedAnimations`, one per clock value; the asset after the
last one. -/
def runEmbedded (ticks : List TimePoint) (a : SceneAsset) : SceneAsset :=
  ticks.foldl (fun s now => (updateEmbeddedAnimations now s).1) a

/-- The `applyAnimation` calls for clip `i` among `calls`, as their time offsets. -/
def clipOffsets (i : Int) (calls : List AnimatorCall) : List ℚ :=
  calls.filterMap (fun c =>
    match c with
    | .applyAnimation j t => if j = i then some t else none
    | .updateBoneMatrices => none)

/-- Status of clip `i`, when the vector has one. -/
def SceneAsset.track (a : SceneAsset) (i : Nat) : Option EmbeddedAnimationStatus :=
  a._embeddedAnimationStatus[i]?

/-- Every status sits at the position its `animationIndex` names, as the constructor builds
the vector. -/
def SceneAsset.Indexed (a : SceneAsset) : Prop :=
  ∀ (j : Nat) (s : EmbeddedAnimationStatus), a._embeddedAnimationStatus[j]? = some s →
    s.animationIndex = (j : Int)

/-- Successive loop bodies on one status, one per clock value. -/
def runTrack (ticks : List TimePoint) (s : EmbeddedAnimationStatus) : EmbeddedAnimationStatus :=
  ticks.foldl (fun st now => (stepStatus now st).1) s

/-! ## Morph animation -/

/-- The conversion `static_cast<int>` of a finite `double`: truncation toward zero, undefined
when the truncated value does not fit an `int`. -/
def truncToInt (x : ℚ) : Option Int := checkedInt (Int.tdiv x.num x.den)

/-- Count of the `duration<double, std::milli>` built from the clock difference
`now - start`: the nanosecond count is converted to `double` and divided by `1000000`. -/
def elapsedMs (start now : TimePoint) : ℚ :=
  toDouble (toDouble ((now - start) * 1000000000) / 1000000)

/-- The `double` quotient `dur.count() / frameLengthInMs` that `updateMorphAnimation` converts
to the frame index. -/
def frameQuotient (start : TimePoint) (frameLengthInMs : ℚ) (now : TimePoint) : ℚ :=
  toDouble (elapsedMs start now / frameLengthInMs)

/-- Method `SceneAsset::applyWeights`: one `setMorphWeights` call per entity of the asset. -/
def applyWeights (entities : List Nat) (weights : Int) (count : Int) : List SetMorphWeights :=
  entities.map (fun e => { entity := e, weights := weights, count := count })

/-- Method `SceneAsset::animateWeights`: any in-flight track is replaced by a new one. -/
def animateWeights (data : Int) (numWeights numFrames : Int) (frameLengthInMs : ℚ)
    (a : SceneAsset) : SceneAsset :=
  { a with
    _morphAnimationBuffer :=
      some (MorphAnimationStatus.new data numWeights numFrames frameLengthInMs) }

/-- What one call of `updateMorphAnimation` did: nothing, a call `applyWeights(weights, count)`
made while the track's `frameIndex` was `frame`, or the release of the track. -/
inductive MorphEffect where
  | idle
  | applied (frame : Int) (weights : Int) (count : Int)
  | completed
deriving DecidableEq

/-- Method `SceneAsset::updateMorphAnimation`, with the clock value it reads.  The result is
`none` where the behaviour is undefined: a zero frame length (the quotient is not finite), a
quotient whose truncation does not fit an `int`, or an overflow of `numFrames - 1` or of
`frameIndex * numWeights`. -/
def updateMorphAnimation (now : TimePoint) (a : SceneAsset) :
    Option (SceneAsset × MorphEffect × List SetMorphWeights) :=
  match a._morphAnimationBuffer with
  | none => some (a, .idle, [])
  | some m =>
    if m.frameIndex = -1 then
      let m1 := { m with frameIndex := m.frameIndex + 1, startTime := now }
      some ({ a with _morphAnimationBuffer := some m1 },
        .applied m1.frameIndex m1.frameData m1.numWeights,
        applyWeights a.entities m1.frameData m1.numWeights)
    else if m.frameLengthInMs = 0 then
      none
    else
      match truncToInt (frameQuotient m.startTime m.frameLengthInMs now) with
      | none => none
      | some frameIndex =>
        if m.numFrames - 1 < intMin then
          none
        else if frameIndex > m.numFrames - 1 then
          some ({ a with _morphAnimationBuffer := none }, .completed, [])
        else if frameIndex ≠ m.frameIndex then
          let m1 := { m with frameIndex := frameIndex }
          match checkedInt (frameIndex * m1.numWeights) with
          | none => none
          | some framePtrOffset =>
            some ({ a with _morphAnimationBuffer := some m1 },
              .applied frameIndex (m1.frameData + framePtrOffset) m1.numWeights,
              applyWeights a.entities (m1.frameData + framePtrOffset) m1.numWeights)
        else
          some (a, .idle, [])

/-- Successive calls of `updateMorphAnimation`, one per clock value: the asset after the last
one and what each call did. -/
def runMorph : List TimePoint → SceneAsset → Option (SceneAsset × List MorphEffect)
  | [], a => some (a, [])
  | now :: rest, a =>
    match updateMorphAnimation now a with
    | none => none
    | some r =>
      match runMorph rest r.1 with
      | none => none
      | some rs => some (rs.1, r.2.1 :: rs.2)

/-- The frames whose weights were applied, in call order. -/
def framesApplied (effects : List MorphEffect) : List Int :=
  effects.filterMap (fun e =>
    match e with
    | .applied frame _ _ => some frame
    | _ => none)

/-- An asset with one entity and no clips, used to host morph tracks. -/
def morphHost : SceneAsset := SceneAsset.new { durations := [] } [1]

/-- The buffer the resource-fetch callback returns, `ResourceBuffer`: the bytes, their count
and the id to hand back to the resource-release callback. -/
structure ResourceBuffer where
  data : List Nat
  size : Nat
  id : Int
deriving DecidableEq

/-- What the code reads from the decoded `LinearImage`. -/
structure LinearImage where
  isValid : Bool
  width : Nat
  height : Nat
  channels : Nat
deriving DecidableEq

/-- Calls made by `loadTexture` and `setTexture` on the engine, the resource callbacks, the
texture and the material instance, and the `Log` line of the failure path. -/
inductive TextureCall where
  | destroy (texture : Texture)
  | loadResource (path : String)
  | logInvalidImage (path : String)
  | build (texture : Texture)
  | setImage (texture : Texture) (byteCount : Nat) (rgb : Bool)
  | setParameterInt (name : String) (value : Int)
  | setParameterTexture (name : String) (texture : Option Texture)
  | freeResource (id : Int)
deriving DecidableEq

/-- Method `SceneAsset::setTexture`, given the material-instance count of the asset; with no material
instance the read of `inst[0]` is out of bounds (`none`). -/
def setTexture (materialInstanceCount : Nat) (a : SceneAsset) : Option (List TextureCall) :=
  if materialInstanceCount = 0 then
    none
  else
    some [.setParameterInt "baseColorIndex" 0, .setParameterTexture "baseColorMap" a._texture]

/-- The byte count `size_t(w * h * channels * sizeof(float))`: the product of the three
`uint32_t` values wraps at `2 ^ 32` before it is widened. -/
def pixelByteCount (w h channels : Nat) : Nat :=
  ((w * h % 2 ^ 32 * channels % 2 ^ 32) * 4) % 2 ^ 64

/-- Method `SceneAsset::loadTexture`, without the `renderableIndex` argument that only the
`Log` line reads.  The resource-fetch callback `_loadResource`, the image decoder
and the material-instance count are parameters; the stream covers the first `size` bytes of
the fetched buffer. -/
def loadTexture (_loadResource : String → ResourceBuffer) (decode : List Nat → LinearImage)
    (materialInstanceCount : Nat) (resourcePath : String) (a : SceneAsset) :
    Option (SceneAsset × List TextureCall) :=
  let destroyed : List TextureCall :=
    match a._texture with
    | some texture => [.destroy texture]
    | none => []
  let a1 : SceneAsset := { a with _texture := none }
  let imageResource := _loadResource resourcePath
  let image := decode (imageResource.data.take imageResource.size)
  if image.isValid = false then
    some (a1, destroyed ++ [.loadResource resourcePath, .logInvalidImage resourcePath])
  else
    let channels := image.channels
    let w := image.width
    let h := image.height
    let texture : Texture := { width := w, height := h, rgb := decide (channels = 3) }
    let a2 : SceneAsset := { a1 with _texture := some texture }
    match setTexture materialInstanceCount a2 with
    | none => none
    | some bound =>
      some (a2,
        destroyed ++ [.loadResource resourcePath, .build texture,
          .setImage texture (pixelByteCount w h channels) (decide (channels = 3))] ++ bound ++
          [.freeResource imageResource.id])

/-- Number of calls of the resource-fetch callback among `calls`. -/
def fetchCount (calls : List TextureCall) : Nat :=
  calls.countP (fun c =>
    match c with
    | .loadResource _ => true
    | _ => false)

/-- Number of calls of the resource-release callback among `calls`. -/
def releaseCount (calls : List TextureCall) : Nat :=
  calls.countP (fun c =>
    match c with
    | .freeResource _ => true
    | _ => false)

/-- A resource-fetch callback that returns a zero-length buffer with id `7`. -/
def fetchEmpty : String → ResourceBuffer := fun _ => { data := [], size := 0, id := 7 }

/-- A decoder that rejects a zero-length buffer and otherwise yields a 1 x 1 RGB image. -/
def decodeNonEmpty : List Nat → LinearImage := fun bytes =>
  if bytes.isEmpty then { isValid := false, width := 0, height := 0, channels := 0 }
  else { isValid := true, width := 1, height := 1, channels := 3 }

/-- The host asset owning a 4 x 4 RGBA texture. -/
def texturedAsset : SceneAsset :=
  { morphHost with _texture := some { width := 4, height := 4, rgb := false } }

/-- Clip `i` completes at the tick `now`: it was playing before the call of
`updateEmbeddedAnimations` and the call itself cleared both `play` and `started`. -/
def completesAt (i : Nat) (now : TimePoint) (a : SceneAsset) : Bool :=
  match a.track i, (updateEmbeddedAnimations now a).1.track i with
  | some before, some after => before.play && !after.play && !after.started
  | _, _ => false

/-- A one-clip asset (duration two seconds) on which `playAnimation(0, false)` has just been
called. -/
def playedOnce : SceneAsset :=
  { _animator := { durations := [2] }, entities := [],
    _embeddedAnimationStatus :=
      [{ animationIndex := 0, duration := 2, loop := false, play := true, started := false,
         startedAt := 0 }],
    _morphAnimationBuffer := none, _texture := none }

/-- A one-clip asset whose non-looping two-second clip was latched at time `10`. -/
def runningClip : SceneAsset :=
  { _animator := { durations := [2] }, entities := [],
    _embeddedAnimationStatus :=
      [{ animationIndex := 0, duration := 2, loop := false, play := true, started := true,
         startedAt := 10 }],
    _morphAnimationBuffer := none, _texture := none }

/-- A one-clip asset whose clip has duration zero, after `playAnimation(0, true)`. -/
def zeroLengthLoop : SceneAsset :=
  { _animator := { durations := [0] }, entities := [],
    _embeddedAnimationStatus :=
      [{ animationIndex := 0, duration := 0, loop := true, play := true, started := false,
         startedAt := 0 }],
    _morphAnimationBuffer := none, _texture := none }

/-- A one-clip asset with a looping three-second clip, after `playAnimation(0, true)`. -/
def loopingClip : SceneAsset :=
  { _animator := { durations := [3] }, entities := [],
    _embeddedAnimationStatus :=
      [{ animationIndex := 0, duration := 3, loop := true, play := true, started := false,
         startedAt := 0 }],
    _morphAnimationBuffer := none, _texture := none }

end polyvox

namespace thermion

/-! ## Camera projection -/

/-- The projection kinds of the API boundary, `Projection` of `APIBoundaryTypes.h`. -/
inductive Projection where
  | Perspective
  | Orthographic
deriving DecidableEq

/-- The projection kinds of the renderer, `filament::Camera::Projection`. -/
inductive FilamentProjection where
  | PERSPECTIVE
  | ORTHO
deriving DecidableEq

/-- The call `camera->setProjection(projection, left, right, bottom, top, near, far)`; the
projection is `none` when the local variable was never assigned. -/
structure SetProjection where
  projection : Option FilamentProjection
  left : ℚ
  right : ℚ
  bottom : ℚ
  top : ℚ
  near : ℚ
  far : ℚ
deriving DecidableEq

/-- The labelled statements of the `switch` in `Camera_setProjection`, in source order: each
assigns `filamentProjection`, and none is followed by `break`. -/
def switchBody : List (Projection × FilamentProjection) :=
  [(.Orthographic, .ORTHO), (.Perspective, .PERSPECTIVE)]

/-- Execution of that `switch`: control jumps to the matching label and then runs every
statement from there to the end of the body. -/
def runSwitch (projection : Projection) (filamentProjection : Option FilamentProjection) :
    Option FilamentProjection :=
  (switchBody.dropWhile (fun c => decide (c.1 ≠ projection))).foldl
    (fun _ c => some c.2) filamentProjection

/-- Function `Camera_setProjection`: the call made on the camera. -/
def Camera_setProjection (projection : Projection) (left right bottom top near far : ℚ) :
    SetProjection :=
  { projection := runSwitch projection none,
    left := left, right := right, bottom := bottom, top := top, near := near, far := far }

end thermion

namespace polyvox

/-! ### Rounding -/

theorem floor_le_roundHalfEven (q : ℚ) : ⌊q⌋ ≤ roundHalfEven q := by
  unfold roundHalfEven
  split_ifs <;> omega

theorem roundHalfEven_le_floor_add_one (q : ℚ) : roundHalfEven q ≤ ⌊q⌋ + 1 := by
  unfold roundHalfEven
  split_ifs <;> omega

theorem roundHalfEven_intCast (n : Int) : roundHalfEven (n : ℚ) = n := by
  unfold roundHalfEven
  simp

theorem roundHalfEven_mono {q r : ℚ} (h : q ≤ r) : roundHalfEven q ≤ roundHalfEven r := by
  rcases lt_or_eq_of_le (Int.floor_le_floor h) with hlt | heq
  · calc roundHalfEven q ≤ ⌊q⌋ + 1 := roundHalfEven_le_floor_add_one q
      _ ≤ ⌊r⌋ := hlt
      _ ≤ roundHalfEven r := floor_le_roundHalfEven r
  · unfold roundHalfEven
    rw [heq]
    have hfr : 2 * (q - ⌊r⌋) ≤ 2 * (r - ⌊r⌋) := by linarith
    split_ifs <;> first | omega | (exfalso; linarith)

theorem roundHalfEven_eq_of_abs_lt (q : ℚ) (n : Int) (h : |q - n| < 1 / 2) :
    roundHalfEven q = n := by
  have h1 := abs_lt.mp h
  by_cases hq : (n : ℚ) ≤ q
  · have hf : ⌊q⌋ = n := by
      rw [Int.floor_eq_iff]
      constructor
      · exact hq
      · linarith [h1.2]
    unfold roundHalfEven
    rw [hf]
    have : 2 * (q - n) < 1 := by linarith [h1.2]
    simp [this]
  · have hf : ⌊q⌋ = n - 1 := by
      rw [Int.floor_eq_iff]
      push_cast
      constructor
      · linarith [h1.1]
      · linarith
    unfold roundHalfEven
    rw [hf]
    push_cast
    have h2 : ¬ 2 * (q - (n - 1)) < 1 := by linarith [h1.1]
    have h3 : 1 < 2 * (q - (n - 1)) := by linarith [h1.1]
    simp only [h2, h3, if_false, if_true]
    omega

theorem ulp_pos (p : Nat) (emin : Int) (x : ℚ) :
    (0 : ℚ) < 2 ^ (binadeExponent emin x - ((p : Int) - 1)) :=
  zpow_pos (by norm_num) _

theorem roundNearestEven_nonneg (p : Nat) (emin : Int) {x : ℚ} (hx : 0 ≤ x) :
    0 ≤ roundNearestEven p emin x := by
  unfold roundNearestEven
  apply mul_nonneg _ (ulp_pos p emin x).le
  have h0 : (0 : ℚ) ≤ x / 2 ^ (binadeExponent emin x - ((p : Int) - 1)) :=
    div_nonneg hx (ulp_pos p emin x).le
  have h := roundHalfEven_mono h0
  rw [show (0 : ℚ) = ((0 : Int) : ℚ) by norm_num, roundHalfEven_intCast] at h
  exact_mod_cast h

theorem binadeExponent_mono (emin : Int) {x y : ℚ} (hx : 0 < x) (hxy : x ≤ y) :
    binadeExponent emin x ≤ binadeExponent emin y := by
  unfold binadeExponent
  rw [abs_of_pos hx, abs_of_pos (lt_of_lt_of_le hx hxy)]
  exact max_le_max (Int.log_mono_right hx hxy) (le_refl _)

theorem two_zpow_div (a b : Int) : (2 : ℚ) ^ a / 2 ^ b = 2 ^ (a - b) :=
  (zpow_sub₀ (by norm_num) a b).symm

/-- A positive value rounds to at most the upper end of its binade. -/
theorem roundNearestEven_le_top (p : Nat) (emin : Int) {x : ℚ} (hx : 0 < x) :
    roundNearestEven p emin x ≤ 2 ^ (binadeExponent emin x + 1) := by
  have hlt : x < 2 ^ (binadeExponent emin x + 1) := by
    have h1 : x < ((2 : ℕ) : ℚ) ^ (Int.log 2 x + 1) := Int.lt_zpow_succ_log_self (by norm_num) x
    have h2 : ((2 : ℕ) : ℚ) ^ (Int.log 2 x + 1) ≤ (2 : ℚ) ^ (binadeExponent emin x + 1) := by
      rw [Nat.cast_ofNat]
      apply zpow_le_zpow_right₀ (by norm_num)
      unfold binadeExponent
      rw [abs_of_pos hx]
      have := le_max_left (Int.log 2 x) emin
      omega
    exact lt_of_lt_of_le h1 h2
  have hu := ulp_pos p emin x
  have hq : x / 2 ^ (binadeExponent emin x - ((p : Int) - 1)) ≤ (((2 : Int) ^ p : Int) : ℚ) := by
    rw [div_le_iff₀ hu]
    have : (((2 : Int) ^ p : Int) : ℚ) * 2 ^ (binadeExponent emin x - ((p : Int) - 1))
        = 2 ^ (binadeExponent emin x + 1) := by
      push_cast
      rw [← zpow_natCast (2 : ℚ) p, ← zpow_add₀ (by norm_num)]
      congr 1
      ring
    rw [this]
    exact hlt.le
  have hr := roundHalfEven_mono hq
  rw [roundHalfEven_intCast] at hr
  unfold roundNearestEven
  calc (roundHalfEven (x / 2 ^ (binadeExponent emin x - ((p : Int) - 1))) : ℚ)
        * 2 ^ (binadeExponent emin x - ((p : Int) - 1))
      ≤ (((2 : Int) ^ p : Int) : ℚ) * 2 ^ (binadeExponent emin x - ((p : Int) - 1)) :=
        mul_le_mul_of_nonneg_right (by exact_mod_cast hr) hu.le
    _ = 2 ^ (binadeExponent emin x + 1) := by
      push_cast
      rw [← zpow_natCast (2 : ℚ) p, ← zpow_add₀ (by norm_num)]
      congr 1
      ring

/-- A positive value above the smallest binade rounds to at least the lower end of its
binade. -/
theorem bottom_le_roundNearestEven (p : Nat) (emin : Int) (hp : 1 ≤ p) {y : ℚ} (hy : 0 < y)
    (he : emin < binadeExponent emin y) :
    2 ^ binadeExponent emin y ≤ roundNearestEven p emin y := by
  have hlog : binadeExponent emin y = Int.log 2 y := by
    unfold binadeExponent at he ⊢
    rw [abs_of_pos hy] at he ⊢
    rcases max_cases (Int.log 2 y) emin with h | h
    · exact h.1
    · omega
  have hle : (2 : ℚ) ^ binadeExponent emin y ≤ y := by
    rw [hlog]
    have := Int.zpow_log_le_self (R := ℚ) (b := 2) (by norm_num) hy
    rwa [Nat.cast_ofNat] at this
  have hu := ulp_pos p emin y
  have hpow : (((2 : Int) ^ (p - 1) : Int) : ℚ) * 2 ^ (binadeExponent emin y - ((p : Int) - 1))
      = 2 ^ binadeExponent emin y := by
    push_cast
    rw [← zpow_natCast (2 : ℚ) (p - 1), ← zpow_add₀ (by norm_num)]
    congr 1
    have : ((p - 1 : Nat) : Int) = (p : Int) - 1 := by omega
    rw [this]
    ring
  have hq : (((2 : Int) ^ (p - 1) : Int) : ℚ)
      ≤ y / 2 ^ (binadeExponent emin y - ((p : Int) - 1)) := by
    rw [le_div_iff₀ hu, hpow]
    exact hle
  have hr := roundHalfEven_mono hq
  rw [roundHalfEven_intCast] at hr
  unfold roundNearestEven
  calc (2 : ℚ) ^ binadeExponent emin y
      = (((2 : Int) ^ (p - 1) : Int) : ℚ) * 2 ^ (binadeExponent emin y - ((p : Int) - 1)) :=
        hpow.symm
    _ ≤ (roundHalfEven (y / 2 ^ (binadeExponent emin y - ((p : Int) - 1))) : ℚ)
        * 2 ^ (binadeExponent emin y - ((p : Int) - 1)) :=
        mul_le_mul_of_nonneg_right (by exact_mod_cast hr) hu.le

theorem roundNearestEven_zero (p : Nat) (emin : Int) : roundNearestEven p emin 0 = 0 := by
  unfold roundNearestEven
  rw [zero_div, show (0 : ℚ) = ((0 : Int) : ℚ) by norm_num, roundHalfEven_intCast]
  simp

/-- Rounding to nearest is monotone on the non-negative values. -/
theorem roundNearestEven_mono (p : Nat) (emin : Int) (hp : 1 ≤ p) {x y : ℚ} (hx : 0 ≤ x)
    (hxy : x ≤ y) : roundNearestEven p emin x ≤ roundNearestEven p emin y := by
  rcases eq_or_lt_of_le hx with h0 | hpos
  · rw [← h0, roundNearestEven_zero]
    exact roundNearestEven_nonneg p emin (le_trans hx hxy)
  have hy : 0 < y := lt_of_lt_of_le hpos hxy
  rcases eq_or_lt_of_le (binadeExponent_mono emin hpos hxy) with heq | hlt
  · unfold roundNearestEven
    rw [heq]
    have hu := ulp_pos p emin y
    apply mul_le_mul_of_nonneg_right _ hu.le
    have : roundHalfEven (x / 2 ^ (binadeExponent emin y - ((p : Int) - 1)))
        ≤ roundHalfEven (y / 2 ^ (binadeExponent emin y - ((p : Int) - 1))) :=
      roundHalfEven_mono (div_le_div_of_nonneg_right hxy hu.le)
    exact_mod_cast this
  · have hemin : emin ≤ binadeExponent emin x := le_max_right _ _
    calc roundNearestEven p emin x ≤ 2 ^ (binadeExponent emin x + 1) :=
          roundNearestEven_le_top p emin hpos
      _ ≤ 2 ^ binadeExponent emin y := zpow_le_zpow_right₀ (by norm_num) (by omega)
      _ ≤ roundNearestEven p emin y :=
          bottom_le_roundNearestEven p emin hp hy (by omega)

theorem binadeExponent_eq (emin : Int) (x : ℚ) (e : Int) (h1 : 2 ^ e ≤ |x|)
    (h2 : |x| < 2 ^ (e + 1)) (hemin : emin ≤ e) : binadeExponent emin x = e := by
  have hpos : 0 < |x| := lt_of_lt_of_le (zpow_pos (by norm_num) e) h1
  have hlog : Int.log 2 |x| = e := by
    apply le_antisymm
    · have := (Int.lt_zpow_iff_log_lt (R := ℚ) (b := 2) (by norm_num) (x := e + 1) hpos).mp
        (by rw [Nat.cast_ofNat]; exact h2)
      omega
    · exact (Int.zpow_le_iff_le_log (R := ℚ) (b := 2) (by norm_num) hpos).mp
        (by rw [Nat.cast_ofNat]; exact h1)
  unfold binadeExponent
  rw [hlog]
  exact max_eq_left hemin

/-- Evaluation of the rounding at a value whose binade and nearest multiple are known. -/
theorem roundNearestEven_eq (p : Nat) (emin : Int) (x : ℚ) (e n : Int) (h1 : 2 ^ e ≤ |x|)
    (h2 : |x| < 2 ^ (e + 1)) (hemin : emin ≤ e)
    (hn : |x / 2 ^ (e - ((p : Int) - 1)) - n| < 1 / 2) :
    roundNearestEven p emin x = n * 2 ^ (e - ((p : Int) - 1)) := by
  unfold roundNearestEven
  rw [binadeExponent_eq emin x e h1 h2 hemin, roundHalfEven_eq_of_abs_lt _ n hn]

/-- Naturals below `2 ^ p` are representable. -/
theorem roundNearestEven_natCast (p : Nat) (emin : Int) (hemin : emin ≤ 0) (n : Nat)
    (hn : n < 2 ^ p) : roundNearestEven p emin (n : ℚ) = n := by
  rcases Nat.eq_zero_or_pos n with h0 | hpos
  · rw [h0, Nat.cast_zero, roundNearestEven_zero]
  have hlog : Int.log 2 |(n : ℚ)| = (Nat.log 2 n : Int) := by
    rw [abs_of_nonneg (Nat.cast_nonneg n), Int.log_natCast]
  have hlt : Nat.log 2 n < p := Nat.log_lt_of_lt_pow (by omega) hn
  have hexp : binadeExponent emin (n : ℚ) = (Nat.log 2 n : Int) := by
    unfold binadeExponent
    rw [hlog]
    apply max_eq_left
    omega
  obtain ⟨k, hk⟩ : ∃ k : Nat, (Nat.log 2 n : Int) - ((p : Int) - 1) = -(k : Int) :=
    ⟨p - 1 - Nat.log 2 n, by omega⟩
  unfold roundNearestEven
  rw [hexp, hk, zpow_neg, zpow_natCast, div_inv_eq_mul]
  have hcast : (n : ℚ) * 2 ^ k = (((n * 2 ^ k : Nat) : Int) : ℚ) := by push_cast; ring
  rw [hcast, roundHalfEven_intCast]
  push_cast
  field_simp


/-! ### The two formats of the code -/

theorem toFloat_zero : toFloat 0 = 0 := roundNearestEven_zero 24 (-126)

theorem toFloat_nonneg {x : ℚ} (hx : 0 ≤ x) : 0 ≤ toFloat x :=
  roundNearestEven_nonneg 24 (-126) hx

theorem toFloat_mono {x y : ℚ} (hx : 0 ≤ x) (hxy : x ≤ y) : toFloat x ≤ toFloat y :=
  roundNearestEven_mono 24 (-126) (by decide) hx hxy

theorem toFloat_natCast (n : Nat) (hn : n < 2 ^ 24) : toFloat (n : ℚ) = n :=
  roundNearestEven_natCast 24 (-126) (by decide) n hn

theorem toDouble_zero : toDouble 0 = 0 := roundNearestEven_zero 53 (-1022)

theorem toDouble_nonneg {x : ℚ} (hx : 0 ≤ x) : 0 ≤ toDouble x :=
  roundNearestEven_nonneg 53 (-1022) hx

theorem toDouble_mono {x y : ℚ} (hx : 0 ≤ x) (hxy : x ≤ y) : toDouble x ≤ toDouble y :=
  roundNearestEven_mono 53 (-1022) (by decide) hx hxy

theorem toDouble_natCast (n : Nat) (hn : n < 2 ^ 53) : toDouble (n : ℚ) = n :=
  roundNearestEven_natCast 53 (-1022) (by decide) n hn

/-- Evaluation of `toDouble` at a value whose binade and nearest multiple are known. -/
theorem toDouble_eq (x : ℚ) (e n : Int) (h1 : 2 ^ e ≤ |x|) (h2 : |x| < 2 ^ (e + 1))
    (hemin : -1022 ≤ e) (hn : |x / 2 ^ (e - 52) - n| < 1 / 2) :
    toDouble x = n * 2 ^ (e - 52) :=
  roundNearestEven_eq 53 (-1022) x e n h1 h2 hemin hn

/-- Evaluation of `toFloat` at a value whose binade and nearest multiple are known. -/
theorem toFloat_eq (x : ℚ) (e n : Int) (h1 : 2 ^ e ≤ |x|) (h2 : |x| < 2 ^ (e + 1))
    (hemin : -126 ≤ e) (hn : |x / 2 ^ (e - 23) - n| < 1 / 2) :
    toFloat x = n * 2 ^ (e - 23) :=
  roundNearestEven_eq 24 (-126) x e n h1 h2 hemin hn

/-! ### The loop body, branch by branch -/

theorem stepStatus_idle (now : TimePoint) (s : EmbeddedAnimationStatus) (hp : s.play = false) :
    stepStatus now s = (s, []) := by
  simp [stepStatus, hp]

theorem stepStatus_latch (now : TimePoint) (s : EmbeddedAnimationStatus) (hp : s.play = true)
    (hs : s.started = false) :
    stepStatus now s =
      ({ s with started := true, startedAt := now }, [.applyAnimation s.animationIndex 0]) := by
  simp [stepStatus, hp, hs]

theorem stepStatus_running (now : TimePoint) (s : EmbeddedAnimationStatus) (hp : s.play = true)
    (hs : s.started = true) (hd : now - s.startedAt < s.duration) :
    stepStatus now s = (s, [.applyAnimation s.animationIndex (toFloat (now - s.startedAt))]) := by
  have hd' : ¬ s.duration ≤ now - s.startedAt := not_le.mpr hd
  simp [stepStatus, hp, hs, hd']

theorem stepStatus_finish (now : TimePoint) (s : EmbeddedAnimationStatus) (hp : s.play = true)
    (hs : s.started = true) (hl : s.loop = false) (hd : s.duration ≤ now - s.startedAt) :
    stepStatus now s = ({ s with play := false, started := false }, []) := by
  simp [stepStatus, hp, hs, hl, hd]

theorem stepStatus_wrap (now : TimePoint) (s : EmbeddedAnimationStatus) (hp : s.play = true)
    (hs : s.started = true) (hl : s.loop = true) (hd : s.duration ≤ now - s.startedAt) :
    stepStatus now s = ({ s with startedAt := now }, [.applyAnimation s.animationIndex 0]) := by
  simp [stepStatus, hp, hs, hl, hd]

theorem stepStatus_animationIndex (now : TimePoint) (s : EmbeddedAnimationStatus) :
    (stepStatus now s).1.animationIndex = s.animationIndex := by
  cases hp : s.play
  · rw [stepStatus_idle now s hp]
  cases hs : s.started
  · rw [stepStatus_latch now s hp hs]
  by_cases hd : s.duration ≤ now - s.startedAt
  · cases hl : s.loop
    · rw [stepStatus_finish now s hp hs hl hd]
    · rw [stepStatus_wrap now s hp hs hl hd]
  · rw [stepStatus_running now s hp hs (not_le.mp hd)]

theorem clipOffsets_stepStatus_ne (now : TimePoint) (s : EmbeddedAnimationStatus) (i : Int)
    (h : s.animationIndex ≠ i) : clipOffsets i (stepStatus now s).2 = [] := by
  cases hp : s.play
  · rw [stepStatus_idle now s hp]; rfl
  cases hs : s.started
  · rw [stepStatus_latch now s hp hs]; simp [clipOffsets, h]
  by_cases hd : s.duration ≤ now - s.startedAt
  · cases hl : s.loop
    · rw [stepStatus_finish now s hp hs hl hd]; rfl
    · rw [stepStatus_wrap now s hp hs hl hd]; simp [clipOffsets, h]
  · rw [stepStatus_running now s hp hs (not_le.mp hd)]; simp [clipOffsets, h]

/-! ### The loop over the vector -/

theorem updateLoop_fst (now : TimePoint) (l : List EmbeddedAnimationStatus) :
    (updateLoop now l).1 = l.map (fun s => (stepStatus now s).1) := by
  induction l with
  | nil => rfl
  | cons s rest ih => simp [updateLoop, ih]

theorem clipOffsets_append (i : Int) (xs ys : List AnimatorCall) :
    clipOffsets i (xs ++ ys) = clipOffsets i xs ++ clipOffsets i ys := by
  simp [clipOffsets, List.filterMap_append]

theorem clipOffsets_updateLoop (now : TimePoint) (i : Int) (l : List EmbeddedAnimationStatus) :
    clipOffsets i (updateLoop now l).2 =
      l.flatMap (fun s => clipOffsets i (stepStatus now s).2) := by
  induction l with
  | nil => rfl
  | cons s rest ih => simp [updateLoop, clipOffsets_append, ih]

theorem flatMap_only {α β : Type} (f : α → List β) (l : List α) (i : Nat)
    (h : ∀ (j : Nat) (s : α), l[j]? = some s → j ≠ i → f s = []) :
    l.flatMap f = (l[i]?.map f).getD [] := by
  induction l generalizing i with
  | nil => rfl
  | cons x xs ih =>
    cases i with
    | zero =>
      have hxs : xs.flatMap f = [] := by
        rw [List.flatMap_eq_nil_iff]
        intro y hy
        obtain ⟨k, hk⟩ := List.getElem?_of_mem hy
        exact h (k + 1) y (by simpa using hk) (by omega)
      simp [hxs]
    | succ k =>
      have hx : f x = [] := h 0 x (by simp) (by omega)
      have hrec := ih k (fun j s hj hne => h (j + 1) s (by simpa using hj) (by omega))
      simp [hx, hrec]

theorem track_update (now : TimePoint) (a : SceneAsset) (i : Nat) :
    (updateEmbeddedAnimations now a).1.track i =
      (a.track i).map (fun s => (stepStatus now s).1) := by
  simp [updateEmbeddedAnimations, SceneAsset.track, updateLoop_fst]

theorem track_runEmbedded (ticks : List TimePoint) (a : SceneAsset) (i : Nat) :
    (runEmbedded ticks a).track i = (a.track i).map (runTrack ticks) := by
  induction ticks generalizing a with
  | nil => cases h : a.track i <;> simp [runEmbedded, runTrack, h]
  | cons t ts ih =>
    have h := ih (updateEmbeddedAnimations t a).1
    simp only [runEmbedded, List.foldl_cons] at h ⊢
    rw [h, track_update]
    cases a.track i <;> simp [runTrack]

theorem indexed_update (now : TimePoint) (a : SceneAsset) (h : a.Indexed) :
    (updateEmbeddedAnimations now a).1.Indexed := by
  intro j s hs
  have hj := track_update now a j
  simp only [SceneAsset.track] at hj
  rw [hj] at hs
  cases hq : a._embeddedAnimationStatus[j]? with
  | none => simp [hq] at hs
  | some q =>
    simp only [hq, Option.map_some', Option.some.injEq] at hs
    rw [← hs, stepStatus_animationIndex]
    exact h j q hq

theorem indexed_runEmbedded (ticks : List TimePoint) (a : SceneAsset) (h : a.Indexed) :
    (runEmbedded ticks a).Indexed := by
  induction ticks generalizing a with
  | nil => exact h
  | cons t ts ih => exact ih _ (indexed_update t a h)

theorem clipOffsets_update (now : TimePoint) (a : SceneAsset) (i : Nat) (h : a.Indexed) :
    clipOffsets (i : Int) (updateEmbeddedAnimations now a).2 =
      ((a.track i).map (fun s => clipOffsets (i : Int) (stepStatus now s).2)).getD [] := by
  have hb : clipOffsets (i : Int) [AnimatorCall.updateBoneMatrices] = [] := rfl
  simp only [updateEmbeddedAnimations, clipOffsets_append, hb, List.append_nil,
    clipOffsets_updateLoop, SceneAsset.track]
  apply flatMap_only
  intro j s hs hne
  apply clipOffsets_stepStatus_ne
  rw [h j s hs]
  exact_mod_cast hne

theorem indexed_new (animator : Animator) (entities : List Nat) :
    (SceneAsset.new animator entities).Indexed := by
  intro j s hs
  simp only [SceneAsset.new, SceneAsset.initStatuses, List.getElem?_map] at hs
  cases hr : (List.range animator.getAnimationCount)[j]? with
  | none => simp [hr] at hs
  | some k =>
    have hk : k = j := by
      rw [List.getElem?_eq_some_iff] at hr
      obtain ⟨hlt, hget⟩ := hr
      simpa using hget.symm
    simp only [hr, Option.map_some', Option.some.injEq] at hs
    rw [← hs, hk]
    rfl

theorem indexed_singleton (a : SceneAsset) (s : EmbeddedAnimationStatus)
    (h : a._embeddedAnimationStatus = [s]) (hs : s.animationIndex = 0) : a.Indexed := by
  intro j q hq
  rw [h] at hq
  cases j with
  | zero =>
    simp only [List.getElem?_cons_zero, Option.some.injEq] at hq
    rw [← hq, hs]; rfl
  | succ k => simp at hq

/-! ### One track over many ticks -/

theorem runTrack_idle (ticks : List TimePoint) (s : EmbeddedAnimationStatus)
    (hp : s.play = false) : runTrack ticks s = s := by
  induction ticks with
  | nil => rfl
  | cons t ts ih =>
    simp only [runTrack, List.foldl_cons, stepStatus_idle t s hp]
    exact ih

theorem runTrack_before (ticks : List TimePoint) (s : EmbeddedAnimationStatus)
    (hp : s.play = true) (hs : s.started = true)
    (hd : ∀ u ∈ ticks, u - s.startedAt < s.duration) : runTrack ticks s = s := by
  induction ticks with
  | nil => rfl
  | cons t ts ih =>
    simp only [runTrack, List.foldl_cons,
      stepStatus_running t s hp hs (hd t (List.mem_cons_self t ts))]
    exact ih (fun u hu => hd u (List.mem_cons_of_mem t hu))

theorem runTrack_after (ticks : List TimePoint) (s : EmbeddedAnimationStatus)
    (hp : s.play = true) (hs : s.started = true) (hl : s.loop = false)
    (hd : ∃ u ∈ ticks, s.duration ≤ u - s.startedAt) :
    runTrack ticks s = { s with play := false, started := false } := by
  induction ticks with
  | nil => simp at hd
  | cons t ts ih =>
    by_cases ht : s.duration ≤ t - s.startedAt
    · simp only [runTrack, List.foldl_cons, stepStatus_finish t s hp hs hl ht]
      exact runTrack_idle ts _ rfl
    · simp only [runTrack, List.foldl_cons, stepStatus_running t s hp hs (not_le.mp ht)]
      apply ih
      obtain ⟨u, hu, hud⟩ := hd
      rcases List.mem_cons.mp hu with rfl | hu'
      · exact absurd hud ht
      · exact ⟨u, hu', hud⟩

theorem runTrack_cons (t : TimePoint) (ticks : List TimePoint) (s : EmbeddedAnimationStatus) :
    runTrack (t :: ticks) s = runTrack ticks (stepStatus t s).1 := rfl

/-- C1.  A non-looping clip `i` on which `playAnimation` has taken effect (`play` set, not yet
started) is ticked at `t0` (the start-latching tick), then at the times `pre`, then at `t`.
The latching tick applies offset `0`.  The tick at `t` completes the clip (clears `play` and
`started`) exactly when `t` is the first tick after `t0` with `t - t0 >= duration`; while no
tick has reached the duration the tick applies offset `t - t0`, narrowed to `float`; and once
some earlier tick has
reached the duration the tick leaves the status of clip `i` unchanged and makes no
`applyAnimation` call for it.  No assumption on the order of the tick times is needed. -/
theorem nonloop_completes_exactly_once (a : SceneAsset) (i : Nat) (s : EmbeddedAnimationStatus)
    (t0 t : TimePoint) (pre : List TimePoint)
    (hidx : a.Indexed) (htrack : a.track i = some s) (hplay : s.play = true)
    (hstarted : s.started = false) (hloop : s.loop = false) :
    clipOffsets (i : Int) (updateEmbeddedAnimations t0 a).2 = [0] ∧
    (completesAt i t (runEmbedded (t0 :: pre) a) = true ↔
      (s.duration ≤ t - t0 ∧ ∀ u ∈ pre, u - t0 < s.duration)) ∧
    ((∀ u ∈ pre, u - t0 < s.duration) → t - t0 < s.duration →
      clipOffsets (i : Int) (updateEmbeddedAnimations t (runEmbedded (t0 :: pre) a)).2
        = [toFloat (t - t0)]) ∧
    ((∃ u ∈ pre, s.duration ≤ u - t0) →
      (updateEmbeddedAnimations t (runEmbedded (t0 :: pre) a)).1.track i
        = (runEmbedded (t0 :: pre) a).track i ∧
      clipOffsets (i : Int) (updateEmbeddedAnimations t (runEmbedded (t0 :: pre) a)).2 = []) := by
  have hi : s.animationIndex = (i : Int) := hidx i s htrack
  obtain ⟨s1, hs1⟩ : ∃ s1 : EmbeddedAnimationStatus,
      s1 = { s with started := true, startedAt := t0 } := ⟨_, rfl⟩
  have h1p : s1.play = true := by rw [hs1]; exact hplay
  have h1s : s1.started = true := by rw [hs1]
  have h1l : s1.loop = false := by rw [hs1]; exact hloop
  have h1d : s1.duration = s.duration := by rw [hs1]
  have h1t : s1.startedAt = t0 := by rw [hs1]
  have h1i : s1.animationIndex = (i : Int) := by rw [hs1]; exact hi
  have hbefore : (runEmbedded (t0 :: pre) a).track i = some (runTrack pre s1) := by
    rw [track_runEmbedded, htrack, Option.map_some', runTrack_cons,
      stepStatus_latch t0 s hplay hstarted, hs1]
  have hcalls : ∀ q, (runEmbedded (t0 :: pre) a).track i = some q →
      clipOffsets (i : Int) (updateEmbeddedAnimations t (runEmbedded (t0 :: pre) a)).2
        = clipOffsets (i : Int) (stepStatus t q).2 := by
    intro q hq
    rw [clipOffsets_update t _ i (indexed_runEmbedded _ a hidx), hq]
    rfl
  have hall1 : (∀ u ∈ pre, u - t0 < s.duration) →
      ∀ u ∈ pre, u - s1.startedAt < s1.duration := by
    intro h u hu; rw [h1t, h1d]; exact h u hu
  have hex1 : (∃ u ∈ pre, s.duration ≤ u - t0) →
      ∃ u ∈ pre, s1.duration ≤ u - s1.startedAt := by
    rintro ⟨u, hu, hud⟩; exact ⟨u, hu, by rw [h1t, h1d]; exact hud⟩
  refine ⟨?_, ?_, ?_, ?_⟩
  · rw [clipOffsets_update t0 a i hidx, htrack, Option.map_some', Option.getD_some,
      stepStatus_latch t0 s hplay hstarted]
    simp [clipOffsets, hi]
  · unfold completesAt
    rw [track_update, hbefore]
    simp only [Option.map_some']
    by_cases hall : ∀ u ∈ pre, u - t0 < s.duration
    · rw [runTrack_before pre s1 h1p h1s (hall1 hall)]
      by_cases ht : s.duration ≤ t - t0
      · rw [stepStatus_finish t s1 h1p h1s h1l (by rw [h1t, h1d]; exact ht)]
        simp only [h1p, Bool.not_false, Bool.and_self, true_iff]
        exact ⟨ht, hall⟩
      · rw [stepStatus_running t s1 h1p h1s (by rw [h1t, h1d]; exact not_le.mp ht)]
        simp [h1p, ht]
    · have hex : ∃ u ∈ pre, s.duration ≤ u - t0 := by
        push_neg at hall
        exact hall
      rw [runTrack_after pre s1 h1p h1s h1l (hex1 hex)]
      simp [hall]
  · intro hall ht
    have hq := hbefore
    rw [runTrack_before pre s1 h1p h1s (hall1 hall)] at hq
    rw [hcalls _ hq, stepStatus_running t s1 h1p h1s (by rw [h1t, h1d]; exact ht)]
    simp [clipOffsets, h1i, h1t]
  · intro hex
    have hq := hbefore
    rw [runTrack_after pre s1 h1p h1s h1l (hex1 hex)] at hq
    constructor
    · rw [track_update, hq, Option.map_some', stepStatus_idle t _ rfl]
    · rw [hcalls _ hq, stepStatus_idle t _ rfl]
      rfl

/-- C1 at the spec's example: a two-second clip, latched at `10`, ticked at `11`, then at
`12.5`. -/
theorem nonloop_completes_exactly_once_witness :
    clipOffsets ((0 : Nat) : Int) (updateEmbeddedAnimations 10 playedOnce).2 = [0] ∧
    (completesAt 0 (25 / 2) (runEmbedded (10 :: [11]) playedOnce) = true ↔
      ((2 : ℚ) ≤ 25 / 2 - 10 ∧ ∀ u ∈ [(11 : ℚ)], u - 10 < (2 : ℚ))) ∧
    ((∀ u ∈ [(11 : ℚ)], u - 10 < (2 : ℚ)) → (25 / 2 : ℚ) - 10 < 2 →
      clipOffsets ((0 : Nat) : Int)
        (updateEmbeddedAnimations (25 / 2) (runEmbedded (10 :: [11]) playedOnce)).2
        = [toFloat (25 / 2 - 10)]) ∧
    ((∃ u ∈ [(11 : ℚ)], (2 : ℚ) ≤ u - 10) →
      (updateEmbeddedAnimations (25 / 2) (runEmbedded (10 :: [11]) playedOnce)).1.track 0
        = (runEmbedded (10 :: [11]) playedOnce).track 0 ∧
      clipOffsets ((0 : Nat) : Int)
        (updateEmbeddedAnimations (25 / 2) (runEmbedded (10 :: [11]) playedOnce)).2 = []) :=
  nonloop_completes_exactly_once playedOnce 0
    { animationIndex := 0, duration := 2, loop := false, play := true, started := false,
      startedAt := 0 }
    10 (25 / 2) [11] (indexed_singleton _ _ rfl rfl) rfl rfl rfl rfl

/-- C4, as stated, fails.  A non-looping two-second clip latched at `10` is ticked at `12.5`:
the only animator call of the tick is `updateBoneMatrices`, so the final offset `2.5` is not
applied, while `play` and `started` are cleared. -/
theorem final_offset_is_not_applied :
    (runningClip.track 0).map (fun s => (s.play, s.started, s.loop, s.duration, s.startedAt))
      = some (true, true, false, 2, 10) ∧
    (updateEmbeddedAnimations (25 / 2) runningClip).2 = [AnimatorCall.updateBoneMatrices] ∧
    AnimatorCall.applyAnimation 0 (25 / 2 - 10) ∉ (updateEmbeddedAnimations (25 / 2) runningClip).2 := by
  have h : stepStatus (25 / 2)
      { animationIndex := 0, duration := 2, loop := false, play := true, started := true,
        startedAt := 10 } =
      ({ animationIndex := 0, duration := 2, loop := false, play := false, started := false,
         startedAt := 10 }, []) :=
    stepStatus_finish _ _ rfl rfl rfl (by norm_num)
  have hc : (updateEmbeddedAnimations (25 / 2) runningClip).2
      = [AnimatorCall.updateBoneMatrices] := by
    simp [updateEmbeddedAnimations, updateLoop, runningClip, h]
  refine ⟨rfl, hc, ?_⟩
  rw [hc]
  simp

/-- C4, amended.  For a non-looping clip `i` that is playing and started, the tick at which
`now - startedAt >= duration` makes no `applyAnimation` call for the clip and clears `play`
and `started`, leaving the other fields as they were. -/
theorem finishing_tick_applies_nothing (a : SceneAsset) (i : Nat) (s : EmbeddedAnimationStatus)
    (now : TimePoint) (hidx : a.Indexed) (htrack : a.track i = some s)
    (hplay : s.play = true) (hstarted : s.started = true) (hloop : s.loop = false)
    (hd : s.duration ≤ now - s.startedAt) :
    clipOffsets (i : Int) (updateEmbeddedAnimations now a).2 = [] ∧
    (updateEmbeddedAnimations now a).1.track i
      = some { s with play := false, started := false } := by
  constructor
  · rw [clipOffsets_update now a i hidx, htrack, Option.map_some', Option.getD_some,
      stepStatus_finish now s hplay hstarted hloop hd]
    rfl
  · rw [track_update, htrack, Option.map_some', stepStatus_finish now s hplay hstarted hloop hd]

/-- C4 amended, at the two-second clip latched at `10` and ticked at `12.5`. -/
theorem finishing_tick_applies_nothing_witness :
    clipOffsets ((0 : Nat) : Int) (updateEmbeddedAnimations (25 / 2) runningClip).2 = [] ∧
    (updateEmbeddedAnimations (25 / 2) runningClip).1.track 0
      = some { animationIndex := 0, duration := 2, loop := false, play := false,
               started := false, startedAt := 10 } :=
  finishing_tick_applies_nothing runningClip 0
    { animationIndex := 0, duration := 2, loop := false, play := true, started := true,
      startedAt := 10 }
    (25 / 2) (indexed_singleton _ _ rfl rfl) rfl rfl rfl rfl (by norm_num)

/-! ### `playAnimation` and `stopAnimation` -/

theorem toSizeT_of_int (index : Int) (h0 : 0 ≤ index) (hint : index < 2 ^ 31) :
    toSizeT index = index.toNat := by
  unfold toSizeT
  rw [Int.emod_eq_of_lt h0 (by omega)]

theorem stopAnimation_valid (a : SceneAsset) (index : Int) (s : EmbeddedAnimationStatus)
    (h0 : 0 ≤ index) (hint : index < 2 ^ 31) (hs : a.track index.toNat = some s) :
    stopAnimation index a =
      some { a with
             _embeddedAnimationStatus :=
               a._embeddedAnimationStatus.set index.toNat
                 { s with play := false, started := false } } := by
  unfold stopAnimation
  rw [toSizeT_of_int index h0 hint]
  simp only [SceneAsset.track] at hs
  rw [hs]

theorem indexed_set (a : SceneAsset) (i : Nat) (s q : EmbeddedAnimationStatus)
    (h : a.Indexed) (hs : a.track i = some s) (hq : q.animationIndex = s.animationIndex) :
    SceneAsset.Indexed
      { a with _embeddedAnimationStatus := a._embeddedAnimationStatus.set i q } := by
  intro j r hr
  simp only [List.getElem?_set] at hr
  by_cases hij : i = j
  · subst hij
    simp only [SceneAsset.track] at hs
    have hlt : i < a._embeddedAnimationStatus.length := by
      by_contra hge
      rw [List.getElem?_eq_none (not_lt.mp hge)] at hs
      exact Option.noConfusion hs
    simp only [if_true, hlt, Option.some.injEq] at hr
    rw [← hr, hq]
    exact h i s hs
  · simp only [hij, if_false] at hr
    exact h j r hr

theorem track_set_self (a : SceneAsset) (i : Nat) (s q : EmbeddedAnimationStatus)
    (hs : a.track i = some s) :
    SceneAsset.track
      { a with _embeddedAnimationStatus := a._embeddedAnimationStatus.set i q } i = some q := by
  simp only [SceneAsset.track] at hs ⊢
  have hlt : i < a._embeddedAnimationStatus.length := by
    by_contra hge
    rw [List.getElem?_eq_none (not_lt.mp hge)] at hs
    exact Option.noConfusion hs
  simp [List.getElem?_set, hlt]

/-- C9.  For every asset whose statuses sit at their clip index, every valid clip index and
every tick time: `stopAnimation(index)` succeeds, and the next `updateEmbeddedAnimations` makes
no `applyAnimation` call for that clip and leaves it with `play = false` and
`started = false`. -/
theorem stop_then_tick_applies_nothing (a : SceneAsset) (index : Int) (now : TimePoint)
    (hidx : a.Indexed) (h0 : 0 ≤ index) (hint : index < 2 ^ 31)
    (hN : index < (a._embeddedAnimationStatus.length : Int)) :
    ∃ stopped, stopAnimation index a = some stopped ∧
      clipOffsets index (updateEmbeddedAnimations now stopped).2 = [] ∧
      ∃ q, (updateEmbeddedAnimations now stopped).1.track index.toNat = some q ∧
        q.play = false ∧ q.started = false := by
  have hlt : index.toNat < a._embeddedAnimationStatus.length := by omega
  obtain ⟨s, hs⟩ : ∃ s, a.track index.toNat = some s :=
    ⟨_, List.getElem?_eq_getElem hlt⟩
  refine ⟨_, stopAnimation_valid a index s h0 hint hs, ?_, ?_⟩
  · have hcast : index = ((index.toNat : Nat) : Int) := (Int.toNat_of_nonneg h0).symm
    have hI := indexed_set a index.toNat s { s with play := false, started := false } hidx hs rfl
    have hT := track_set_self a index.toNat s { s with play := false, started := false } hs
    have hc := clipOffsets_update now _ index.toNat hI
    rw [hT, Option.map_some', Option.getD_some, stepStatus_idle now _ rfl, ← hcast] at hc
    rw [hc]
    rfl
  · refine ⟨{ s with play := false, started := false }, ?_, rfl, rfl⟩
    rw [track_update,
      track_set_self a index.toNat s { s with play := false, started := false } hs,
      Option.map_some', stepStatus_idle now _ rfl]

/-- C9 at a clip that is playing and started: stopped, then ticked at `11`. -/
theorem stop_then_tick_applies_nothing_witness :
    ∃ stopped, stopAnimation 0 runningClip = some stopped ∧
      clipOffsets 0 (updateEmbeddedAnimations 11 stopped).2 = [] ∧
      ∃ q, (updateEmbeddedAnimations 11 stopped).1.track (0 : Int).toNat = some q ∧
        q.play = false ∧ q.started = false :=
  stop_then_tick_applies_nothing runningClip 0 11 (indexed_singleton _ _ rfl rfl)
    (by decide) (by decide) (by decide)

/-- C6, the failing input.  On a one-clip asset `stopAnimation(1)` subscripts the status vector
out of bounds (undefined behaviour, `none`) instead of reporting the index, whereas
`playAnimation(1, false)` on the same asset does report it and changes nothing. -/
theorem stopAnimation_out_of_range_unguarded :
    stopAnimation 1 playedOnce = none ∧
    playAnimation 1 false playedOnce
      = some (playedOnce, [PlayLog.playing 1, PlayLog.noSuchAnimation 1]) := by
  constructor
  · rfl
  · rfl

/-- With no clips at all the guard of `playAnimation` compares against `size_t(0) - 1`, which no
index exceeds, so the empty vector is subscripted. -/
theorem playAnimation_no_clips (index : Int) (loop : Bool) :
    playAnimation index loop (SceneAsset.new { durations := [] } []) = none := by
  have h : ¬ toSizeT index > toSizeT (((0 : Nat) : Int) - 1) := by
    unfold toSizeT
    have h1 : ((((0 : Nat) : Int) - 1) % 2 ^ 64).toNat = 2 ^ 64 - 1 := by decide
    rw [h1]
    have h2 : index % 2 ^ 64 < 2 ^ 64 := Int.emod_lt_of_pos _ (by decide)
    omega
  have h' : ¬ toSizeT index >
      toSizeT (((SceneAsset.new { durations := [] } [])._animator.getAnimationCount : Int) - 1) := h
  unfold playAnimation
  rw [if_neg h']
  rfl

/-- A negative index converts to a `size_t` above every clip count of a non-empty asset, so
`playAnimation` reports it. -/
theorem playAnimation_negative_reported :
    playAnimation (-1) true playedOnce
      = some (playedOnce, [PlayLog.playing (-1), PlayLog.noSuchAnimation (-1)]) := by
  rfl

/-- On a valid index whose clip is not started, `playAnimation` sets `play` and stores the loop
flag, leaving `started` clear: the state the tick theorems start from. -/
theorem playAnimation_starts (a : SceneAsset) (index : Int) (loop : Bool)
    (s : EmbeddedAnimationStatus) (h0 : 0 ≤ index) (hint : index < 2 ^ 31)
    (hcount : a._animator.getAnimationCount = a._embeddedAnimationStatus.length)
    (hsize : a._embeddedAnimationStatus.length < 2 ^ 64)
    (hs : a.track index.toNat = some s) (hstopped : s.started = false) :
    playAnimation index loop a =
      some ({ a with
              _embeddedAnimationStatus :=
                a._embeddedAnimationStatus.set index.toNat
                  { s with play := true, loop := loop } },
            [.playing index, .starting index]) := by
  have hlt : index.toNat < a._embeddedAnimationStatus.length := by
    simp only [SceneAsset.track] at hs
    by_contra hge
    rw [List.getElem?_eq_none (not_lt.mp hge)] at hs
    exact Option.noConfusion hs
  have hguard : ¬ toSizeT index > toSizeT ((a._animator.getAnimationCount : Int) - 1) := by
    rw [hcount, toSizeT_of_int index h0 hint]
    unfold toSizeT
    rw [Int.emod_eq_of_lt (by omega) (by omega)]
    omega
  unfold playAnimation
  rw [if_neg hguard, toSizeT_of_int index h0 hint]
  simp only [SceneAsset.track] at hs
  rw [hs]
  simp [hstopped]

theorem indexed_playAnimation (a after : SceneAsset) (index : Int) (loop : Bool)
    (log : List PlayLog) (h : a.Indexed) (hplay : playAnimation index loop a = some (after, log)) :
    after.Indexed := by
  unfold playAnimation at hplay
  split_ifs at hplay with hguard
  · cases hplay; exact h
  · cases hq : a._embeddedAnimationStatus[toSizeT index]? with
    | none => rw [hq] at hplay; cases hplay
    | some q =>
      rw [hq] at hplay
      simp only at hplay
      split_ifs at hplay with hst
      · cases hplay; exact h
      · cases hplay
        exact indexed_set a (toSizeT index) q _ h hq rfl

theorem indexed_stopAnimation (a after : SceneAsset) (index : Int) (h : a.Indexed)
    (hstop : stopAnimation index a = some after) : after.Indexed := by
  unfold stopAnimation at hstop
  cases hq : a._embeddedAnimationStatus[toSizeT index]? with
  | none => rw [hq] at hstop; cases hstop
  | some q =>
    rw [hq] at hstop
    cases hstop
    exact indexed_set a (toSizeT index) q _ h hq rfl

/-- The asset `playedOnce` is what `playAnimation(0, false)` makes of a freshly constructed
one-clip asset. -/
theorem playedOnce_from_playAnimation :
    playAnimation 0 false (SceneAsset.new { durations := [2] } [])
      = some (playedOnce, [.playing 0, .starting 0]) := by
  rfl

/-! ### Looping tracks -/

theorem runTrack_snoc (ticks : List TimePoint) (t : TimePoint) (s : EmbeddedAnimationStatus) :
    runTrack (ticks ++ [t]) s = (stepStatus t (runTrack ticks s)).1 := by
  simp [runTrack, List.foldl_append]

/-- One loop body on a playing, looping status whose duration is a `float` value and whose
start, if latched, is not in the future: the status stays playing and becomes started, and
exactly one offset is applied, between `0` and the duration (or `0` itself). -/
theorem stepStatus_loop (now : TimePoint) (q : EmbeddedAnimationStatus)
    (hp : q.play = true) (hl : q.loop = true) (hle : q.started = true → q.startedAt ≤ now)
    (hfloat : toFloat q.duration = q.duration) :
    ∃ o, (stepStatus now q).2 = [AnimatorCall.applyAnimation q.animationIndex o] ∧
      0 ≤ o ∧ o ≤ max q.duration 0 ∧
      (stepStatus now q).1.play = true ∧ (stepStatus now q).1.started = true ∧
      (stepStatus now q).1.loop = true ∧ (stepStatus now q).1.duration = q.duration ∧
      ((stepStatus now q).1.startedAt = now ∨
        (q.started = true ∧ (stepStatus now q).1.startedAt = q.startedAt)) := by
  cases hs : q.started
  · rw [stepStatus_latch now q hp hs]
    exact ⟨0, rfl, le_refl _, le_max_right _ _, hp, rfl, hl, rfl, Or.inl rfl⟩
  by_cases hd : q.duration ≤ now - q.startedAt
  · rw [stepStatus_wrap now q hp hs hl hd]
    exact ⟨0, rfl, le_refl _, le_max_right _ _, hp, hs, hl, rfl, Or.inl rfl⟩
  · rw [stepStatus_running now q hp hs (not_le.mp hd)]
    have h0 : 0 ≤ now - q.startedAt := sub_nonneg.mpr (hle hs)
    have hup : toFloat (now - q.startedAt) ≤ q.duration := by
      have := toFloat_mono h0 (not_le.mp hd).le
      rwa [hfloat] at this
    exact ⟨toFloat (now - q.startedAt), rfl, toFloat_nonneg h0, le_trans hup (le_max_left _ _),
      hp, hs, hl, rfl, Or.inr ⟨rfl, rfl⟩⟩

/-- After any ticks a looping track that was played is still playing and looping, and its
start, if latched, is one of the tick times. -/
theorem runTrack_loop (ticks : List TimePoint) (s : EmbeddedAnimationStatus)
    (hp : s.play = true) (hs : s.started = false) (hl : s.loop = true) :
    (runTrack ticks s).play = true ∧ (runTrack ticks s).loop = true ∧
    (runTrack ticks s).duration = s.duration ∧
    ((runTrack ticks s).started = true → (runTrack ticks s).startedAt ∈ ticks) := by
  induction ticks using List.reverseRecOn with
  | nil => exact ⟨hp, hl, rfl, fun h => by rw [show runTrack [] s = s from rfl, hs] at h; cases h⟩
  | append_singleton ts t ih =>
    obtain ⟨ihp, ihl, ihd, ihs⟩ := ih
    rw [runTrack_snoc]
    cases hq : (runTrack ts s).started
    · rw [stepStatus_latch t _ ihp hq]
      exact ⟨ihp, ihl, ihd, fun _ => by simp⟩
    by_cases hd : (runTrack ts s).duration ≤ t - (runTrack ts s).startedAt
    · rw [stepStatus_wrap t _ ihp hq ihl hd]
      exact ⟨ihp, ihl, ihd, fun _ => by simp⟩
    · rw [stepStatus_running t _ ihp hq (not_le.mp hd)]
      exact ⟨ihp, ihl, ihd, fun _ => List.mem_append_left _ (ihs hq)⟩

theorem toFloat_just_below_three : toFloat (2999999999 / 1000000000) = 3 := by
  rw [toFloat_eq _ 1 12582912 (by norm_num [abs_of_pos]) (by norm_num [abs_of_pos])
    (by norm_num) (by norm_num [abs_lt])]
  norm_num

/-- C2, as stated, fails.  (1) A looping three-second clip is latched at `10` s and ticked
`2.999999999` s later: the elapsed time is below the duration, and the `float` offset passed
to `applyAnimation` is `3`, the duration itself, outside `[0, 3)`.  (2) A looping clip of
duration zero is played and ticked at time `5`: `applyAnimation` is called with offset `0`,
which is not in the empty interval `[0, 0)`. -/
theorem loop_offset_outside_half_open_interval :
    ((12999999999 / 1000000000 : ℚ) - 10 < 3 ∧
      (updateEmbeddedAnimations (12999999999 / 1000000000) (runEmbedded [10] loopingClip)).2
        = [AnimatorCall.applyAnimation 0 3, AnimatorCall.updateBoneMatrices] ∧
      ¬ ((0 : ℚ) ≤ 3 ∧ (3 : ℚ) < 3)) ∧
    ((zeroLengthLoop.track 0).map (fun s => (s.loop, s.play, s.duration))
        = some (true, true, 0) ∧
      (updateEmbeddedAnimations 5 zeroLengthLoop).2
        = [AnimatorCall.applyAnimation 0 0, AnimatorCall.updateBoneMatrices] ∧
      ¬ ((0 : ℚ) ≤ 0 ∧ (0 : ℚ) < 0)) := by
  have hlatch : stepStatus 10
      { animationIndex := 0, duration := 3, loop := true, play := true, started := false,
        startedAt := 0 } =
      ({ animationIndex := 0, duration := 3, loop := true, play := true, started := true,
         startedAt := 10 }, [AnimatorCall.applyAnimation 0 0]) :=
    stepStatus_latch _ _ rfl rfl
  have helapsed : (12999999999 / 1000000000 : ℚ) - 10 = 2999999999 / 1000000000 := by norm_num
  have hrun : stepStatus (12999999999 / 1000000000)
      { animationIndex := 0, duration := 3, loop := true, play := true, started := true,
        startedAt := 10 } =
      ({ animationIndex := 0, duration := 3, loop := true, play := true, started := true,
         startedAt := 10 }, [AnimatorCall.applyAnimation 0 3]) := by
    rw [stepStatus_running _ _ rfl rfl (by norm_num)]
    simp only [helapsed, toFloat_just_below_three]
  have hzero : stepStatus 5
      { animationIndex := 0, duration := 0, loop := true, play := true, started := false,
        startedAt := 0 } =
      ({ animationIndex := 0, duration := 0, loop := true, play := true, started := true,
         startedAt := 5 }, [AnimatorCall.applyAnimation 0 0]) :=
    stepStatus_latch _ _ rfl rfl
  refine ⟨⟨by norm_num, ?_, by norm_num⟩, ⟨rfl, ?_, by simp⟩⟩
  · simp [runEmbedded, updateEmbeddedAnimations, updateLoop, loopingClip, hlatch, hrun]
  · simp [updateEmbeddedAnimations, updateLoop, zeroLengthLoop, hzero]

/-- C2, amended.  A looping clip `i` whose duration is a `float` value and on which
`playAnimation` has taken effect is ticked at the non-decreasing times `pre ++ [t]`.  The tick
at `t` does not complete the clip, which is playing and started afterwards; it makes exactly
one `applyAnimation` call for the clip, with an offset `o` in the closed interval
`[0, max duration 0]`. -/
theorem loop_never_completes (a : SceneAsset) (i : Nat) (s : EmbeddedAnimationStatus)
    (pre : List TimePoint) (t : TimePoint)
    (hidx : a.Indexed) (htrack : a.track i = some s) (hplay : s.play = true)
    (hstarted : s.started = false) (hloop : s.loop = true)
    (hfloat : toFloat s.duration = s.duration)
    (hmono : (pre ++ [t]).Pairwise (· ≤ ·)) :
    completesAt i t (runEmbedded pre a) = false ∧
    (∃ q, (updateEmbeddedAnimations t (runEmbedded pre a)).1.track i = some q ∧
      q.play = true ∧ q.started = true) ∧
    (∃ o, clipOffsets (i : Int) (updateEmbeddedAnimations t (runEmbedded pre a)).2 = [o] ∧
      0 ≤ o ∧ o ≤ max s.duration 0) := by
  obtain ⟨rp, rl, rd, rs⟩ := runTrack_loop pre s hplay hstarted hloop
  have hbefore : (runEmbedded pre a).track i = some (runTrack pre s) := by
    rw [track_runEmbedded, htrack, Option.map_some']
  have hle : (runTrack pre s).started = true → (runTrack pre s).startedAt ≤ t := by
    intro h
    have hall := (List.pairwise_append.mp hmono).2.2
    exact hall _ (rs h) t (List.mem_singleton_self t)
  obtain ⟨o, hcalls, ho0, hod, sp, ss, _, _, _⟩ :=
    stepStatus_loop t (runTrack pre s) rp rl hle (by rw [rd]; exact hfloat)
  have hafter : (updateEmbeddedAnimations t (runEmbedded pre a)).1.track i
      = some (stepStatus t (runTrack pre s)).1 := by
    rw [track_update, hbefore, Option.map_some']
  have hI : (runTrack pre s).animationIndex = (i : Int) :=
    indexed_runEmbedded pre a hidx i _ hbefore
  refine ⟨?_, ⟨_, hafter, sp, ss⟩, ⟨o, ?_, ho0, by rw [rd] at hod; exact hod⟩⟩
  · unfold completesAt
    rw [hafter, hbefore]
    simp [sp]
  · rw [clipOffsets_update t _ i (indexed_runEmbedded pre a hidx), hbefore, Option.map_some',
      Option.getD_some, hcalls]
    simp [clipOffsets, hI]

/-- C2 amended, at a looping three-second clip ticked at `10`, `12`, `14` and then `15`. -/
theorem loop_never_completes_witness :
    completesAt 0 15 (runEmbedded [10, 12, 14] loopingClip) = false ∧
    (∃ q, (updateEmbeddedAnimations 15 (runEmbedded [10, 12, 14] loopingClip)).1.track 0
        = some q ∧ q.play = true ∧ q.started = true) ∧
    (∃ o, clipOffsets ((0 : Nat) : Int)
        (updateEmbeddedAnimations 15 (runEmbedded [10, 12, 14] loopingClip)).2 = [o] ∧
      0 ≤ o ∧ o ≤ max (3 : ℚ) 0) :=
  loop_never_completes loopingClip 0
    { animationIndex := 0, duration := 3, loop := true, play := true, started := false,
      startedAt := 0 }
    [10, 12, 14] 15 (indexed_singleton _ _ rfl rfl) rfl rfl rfl rfl
    (by exact_mod_cast toFloat_natCast 3 (by norm_num)) (by norm_num)

/-! ### Morph animation -/

theorem checkedInt_of_range (n : Int) (h1 : intMin ≤ n) (h2 : n ≤ intMax) :
    checkedInt n = some n := by
  unfold checkedInt
  rw [if_pos ⟨h1, h2⟩]

theorem truncToInt_of_nonneg (x : ℚ) (h0 : 0 ≤ x) (hx : x < 2147483648) :
    truncToInt x = some ⌊x⌋ := by
  unfold truncToInt
  rw [Int.tdiv_eq_ediv (Rat.num_nonneg.mpr h0) (Int.natCast_nonneg _), ← Rat.floor_def]
  apply checkedInt_of_range
  · have : 0 ≤ ⌊x⌋ := Int.floor_nonneg.mpr h0
    unfold intMin
    omega
  · have : ⌊x⌋ < 2147483648 := Int.floor_lt.mpr (by exact_mod_cast hx)
    unfold intMax
    omega

theorem elapsedMs_nonneg (start now : TimePoint) (h : start ≤ now) : 0 ≤ elapsedMs start now := by
  unfold elapsedMs
  apply toDouble_nonneg
  apply div_nonneg _ (by norm_num)
  apply toDouble_nonneg
  exact mul_nonneg (sub_nonneg.mpr h) (by norm_num)

theorem elapsedMs_mono (start u v : TimePoint) (hu : start ≤ u) (huv : u ≤ v) :
    elapsedMs start u ≤ elapsedMs start v := by
  unfold elapsedMs
  have h0 : 0 ≤ (u - start) * 1000000000 := mul_nonneg (sub_nonneg.mpr hu) (by norm_num)
  have h1 : (u - start) * 1000000000 ≤ (v - start) * 1000000000 :=
    mul_le_mul_of_nonneg_right (by linarith) (by norm_num)
  apply toDouble_mono (div_nonneg (toDouble_nonneg h0) (by norm_num))
  exact div_le_div_of_nonneg_right (toDouble_mono h0 h1) (by norm_num)

theorem frameQuotient_nonneg (start fl now : ℚ) (hfl : 0 < fl) (h : start ≤ now) :
    0 ≤ frameQuotient start fl now := by
  unfold frameQuotient
  exact toDouble_nonneg (div_nonneg (elapsedMs_nonneg start now h) hfl.le)

/-- The quotient the code computes does not decrease with the clock. -/
theorem frameQuotient_mono (start fl u v : ℚ) (hfl : 0 < fl) (hu : start ≤ u) (huv : u ≤ v) :
    frameQuotient start fl u ≤ frameQuotient start fl v := by
  unfold frameQuotient
  apply toDouble_mono (div_nonneg (elapsedMs_nonneg start u hu) hfl.le)
  exact div_le_div_of_nonneg_right (elapsedMs_mono start u v hu huv) hfl.le

/-- The outcomes of a tick on a started track once the conversion to `int` is defined. -/
theorem updateMorphAnimation_started (now : TimePoint) (a : SceneAsset)
    (m : MorphAnimationStatus) (frame : Int) (hm : a._morphAnimationBuffer = some m)
    (hstarted : m.frameIndex ≠ -1) (hfl : m.frameLengthInMs ≠ 0)
    (hframe : truncToInt (frameQuotient m.startTime m.frameLengthInMs now) = some frame)
    (hnf : intMin ≤ m.numFrames - 1) :
    updateMorphAnimation now a =
      if frame > m.numFrames - 1 then
        some ({ a with _morphAnimationBuffer := none }, .completed, [])
      else if frame ≠ m.frameIndex then
        match checkedInt (frame * m.numWeights) with
        | none => none
        | some framePtrOffset =>
          some ({ a with _morphAnimationBuffer := some { m with frameIndex := frame } },
            .applied frame (m.frameData + framePtrOffset) m.numWeights,
            applyWeights a.entities (m.frameData + framePtrOffset) m.numWeights)
      else
        some (a, .idle, []) := by
  unfold updateMorphAnimation
  rw [hm]
  simp only [if_neg hstarted, if_neg hfl, hframe, if_neg (not_lt.mpr hnf)]

theorem updateMorphAnimation_release (now : TimePoint) (a : SceneAsset)
    (m : MorphAnimationStatus) (frame : Int) (hm : a._morphAnimationBuffer = some m)
    (hstarted : m.frameIndex ≠ -1) (hfl : m.frameLengthInMs ≠ 0)
    (hframe : truncToInt (frameQuotient m.startTime m.frameLengthInMs now) = some frame)
    (hnf : intMin ≤ m.numFrames - 1) (hpast : frame > m.numFrames - 1) :
    updateMorphAnimation now a
      = some ({ a with _morphAnimationBuffer := none }, .completed, []) := by
  rw [updateMorphAnimation_started now a m frame hm hstarted hfl hframe hnf, if_pos hpast]

theorem updateMorphAnimation_same (now : TimePoint) (a : SceneAsset)
    (m : MorphAnimationStatus) (frame : Int) (hm : a._morphAnimationBuffer = some m)
    (hstarted : m.frameIndex ≠ -1) (hfl : m.frameLengthInMs ≠ 0)
    (hframe : truncToInt (frameQuotient m.startTime m.frameLengthInMs now) = some frame)
    (hnf : intMin ≤ m.numFrames - 1) (hin : ¬ frame > m.numFrames - 1)
    (hsame : frame = m.frameIndex) :
    updateMorphAnimation now a = some (a, .idle, []) := by
  rw [updateMorphAnimation_started now a m frame hm hstarted hfl hframe hnf, if_neg hin,
    if_neg (not_not.mpr hsame)]

theorem updateMorphAnimation_apply (now : TimePoint) (a : SceneAsset)
    (m : MorphAnimationStatus) (frame : Int) (hm : a._morphAnimationBuffer = some m)
    (hstarted : m.frameIndex ≠ -1) (hfl : m.frameLengthInMs ≠ 0)
    (hframe : truncToInt (frameQuotient m.startTime m.frameLengthInMs now) = some frame)
    (hnf : intMin ≤ m.numFrames - 1) (hin : ¬ frame > m.numFrames - 1)
    (hnew : frame ≠ m.frameIndex)
    (hlo : intMin ≤ frame * m.numWeights) (hhi : frame * m.numWeights ≤ intMax) :
    updateMorphAnimation now a =
      some ({ a with _morphAnimationBuffer := some { m with frameIndex := frame } },
        .applied frame (m.frameData + frame * m.numWeights) m.numWeights,
        applyWeights a.entities (m.frameData + frame * m.numWeights) m.numWeights) := by
  rw [updateMorphAnimation_started now a m frame hm hstarted hfl hframe hnf, if_neg hin,
    if_pos hnew, checkedInt_of_range _ hlo hhi]

theorem updateMorphAnimation_overflow (now : TimePoint) (a : SceneAsset)
    (m : MorphAnimationStatus) (frame : Int) (hm : a._morphAnimationBuffer = some m)
    (hstarted : m.frameIndex ≠ -1) (hfl : m.frameLengthInMs ≠ 0)
    (hframe : truncToInt (frameQuotient m.startTime m.frameLengthInMs now) = some frame)
    (hnf : intMin ≤ m.numFrames - 1) (hin : ¬ frame > m.numFrames - 1)
    (hnew : frame ≠ m.frameIndex) (hover : intMax < frame * m.numWeights) :
    updateMorphAnimation now a = none := by
  have hnone : checkedInt (frame * m.numWeights) = none := by
    unfold checkedInt
    rw [if_neg]
    intro h
    exact absurd h.2 (not_le.mpr hover)
  rw [updateMorphAnimation_started now a m frame hm hstarted hfl hframe hnf, if_neg hin,
    if_pos hnew, hnone]

theorem updateMorphAnimation_undefined (now : TimePoint) (a : SceneAsset)
    (m : MorphAnimationStatus) (hm : a._morphAnimationBuffer = some m)
    (hstarted : m.frameIndex ≠ -1) (hfl : m.frameLengthInMs ≠ 0)
    (hframe : truncToInt (frameQuotient m.startTime m.frameLengthInMs now) = none) :
    updateMorphAnimation now a = none := by
  unfold updateMorphAnimation
  rw [hm]
  simp only [if_neg hstarted, if_neg hfl, hframe]

theorem updateMorphAnimation_first (now : TimePoint) (a : SceneAsset)
    (m : MorphAnimationStatus) (hm : a._morphAnimationBuffer = some m)
    (hfresh : m.frameIndex = -1) :
    updateMorphAnimation now a =
      some ({ a with _morphAnimationBuffer := some { m with frameIndex := 0, startTime := now } },
        .applied 0 m.frameData m.numWeights, applyWeights a.entities m.frameData m.numWeights) := by
  unfold updateMorphAnimation
  rw [hm]
  simp [hfresh]

theorem updateMorphAnimation_absent (now : TimePoint) (a : SceneAsset)
    (hm : a._morphAnimationBuffer = none) :
    updateMorphAnimation now a = some (a, .idle, []) := by
  unfold updateMorphAnimation
  rw [hm]

/-! ### Evaluation at concrete clock values -/

/-- When the elapsed time is a whole number `n` of milliseconds, small enough for its
nanosecond count to be a `double`, the code's `dur.count()` is `n`. -/
theorem elapsedMs_whole (start now : TimePoint) (n : Nat) (hn : n * 1000000 < 2 ^ 53)
    (h : (now - start) * 1000 = n) : elapsedMs start now = n := by
  unfold elapsedMs
  have h1 : (now - start) * 1000000000 = ((n * 1000000 : Nat) : ℚ) := by
    push_cast
    linarith
  rw [h1, toDouble_natCast _ hn]
  have h2 : ((n * 1000000 : Nat) : ℚ) / 1000000 = (n : ℚ) := by
    push_cast
    field_simp
  rw [h2, toDouble_natCast n (by omega)]

theorem toDouble_three_halves : toDouble (3 / 2) = 3 / 2 := by
  rw [toDouble_eq _ 0 (3 * 2 ^ 51) (by norm_num [abs_of_pos]) (by norm_num [abs_of_pos])
    (by norm_num) (by norm_num [abs_lt])]
  norm_num

theorem toDouble_neg_five_halves : toDouble (-5 / 2) = -5 / 2 := by
  rw [toDouble_eq _ 1 (-5 * 2 ^ 50) (by norm_num [abs_of_neg]) (by norm_num [abs_of_neg])
    (by norm_num) (by norm_num [abs_lt])]
  norm_num

theorem truncToInt_three_halves : truncToInt (3 / 2) = some 1 := by
  norm_num [truncToInt]
  rfl

theorem truncToInt_neg_five_halves : truncToInt (-5 / 2) = some (-2) := by
  norm_num [truncToInt]
  rfl

theorem frameQuotient_150_value (t0 : TimePoint) : frameQuotient t0 100 (t0 + 3 / 20) = 3 / 2 := by
  unfold frameQuotient
  rw [elapsedMs_whole t0 (t0 + 3 / 20) 150 (by norm_num) (by push_cast; ring)]
  have h : ((150 : Nat) : ℚ) / 100 = 3 / 2 := by norm_num
  rw [h, toDouble_three_halves]

theorem truncToInt_natCast (n : Nat) (h : n ≤ 2147483647) : truncToInt (n : ℚ) = some n := by
  unfold truncToInt
  rw [Rat.num_natCast, Rat.den_natCast, Nat.cast_one, Int.tdiv_one]
  apply checkedInt_of_range
  · unfold intMin; omega
  · unfold intMax; omega

theorem truncToInt_natCast_large (n : Nat) (h : 2147483648 ≤ n) : truncToInt (n : ℚ) = none := by
  unfold truncToInt checkedInt
  rw [Rat.num_natCast, Rat.den_natCast, Nat.cast_one, Int.tdiv_one, if_neg]
  unfold intMax
  omega

theorem runMorph_second_undefined (t0 t1 : TimePoint) (a a1 : SceneAsset) (e : MorphEffect)
    (calls : List SetMorphWeights) (h1 : updateMorphAnimation t0 a = some (a1, e, calls))
    (h2 : updateMorphAnimation t1 a1 = none) : runMorph [t0, t1] a = none := by
  simp only [runMorph, h1, h2]

/-- A frame length of `1` ms and a tick `2147483648` ms after the start: the quotient is
`2 ^ 31`, whose conversion to `int` is undefined. -/
theorem morph_conversion_undefined :
    runMorph [1, 1 + 2147483648 / 1000] (animateWeights 0 2 3 1 morphHost) = none := by
  have h1 := updateMorphAnimation_first 1 (animateWeights 0 2 3 1 morphHost)
    (MorphAnimationStatus.new 0 2 3 1) rfl rfl
  have hq : truncToInt (frameQuotient 1 1 (1 + 2147483648 / 1000)) = none := by
    unfold frameQuotient
    rw [elapsedMs_whole 1 (1 + 2147483648 / 1000) 2147483648 (by norm_num)
      (by push_cast; ring), div_one, toDouble_natCast _ (by norm_num)]
    exact truncToInt_natCast_large _ (by norm_num)
  have h2 := updateMorphAnimation_undefined (1 + 2147483648 / 1000)
    { morphHost with
      _morphAnimationBuffer :=
        some ({ frameData := 0, numWeights := 2, numFrames := 3, frameLengthInMs := 1,
                frameIndex := 0, startTime := 1 }) }
    { frameData := 0, numWeights := 2, numFrames := 3, frameLengthInMs := 1,
      frameIndex := 0, startTime := 1 } rfl (show (0 : Int) ≠ -1 by decide)
    (show (1 : ℚ) ≠ 0 by norm_num) hq
  exact runMorph_second_undefined _ _ _ _ _ _ h1 h2

/-- With `70000` frames of `40000` weights and `1` ms per frame, a tick `69999` ms after the
start selects the last frame, whose offset `69999 * 40000` does not fit an `int`. -/
theorem morph_offset_overflow :
    runMorph [1, 1 + 69999 / 1000] (animateWeights 0 40000 70000 1 morphHost) = none := by
  have h1 := updateMorphAnimation_first 1 (animateWeights 0 40000 70000 1 morphHost)
    (MorphAnimationStatus.new 0 40000 70000 1) rfl rfl
  have hq : truncToInt (frameQuotient 1 1 (1 + 69999 / 1000)) = some 69999 := by
    unfold frameQuotient
    rw [elapsedMs_whole 1 (1 + 69999 / 1000) 69999 (by norm_num)
      (by push_cast; ring), div_one, toDouble_natCast _ (by norm_num)]
    exact truncToInt_natCast 69999 (by norm_num)
  have h2 := updateMorphAnimation_overflow (1 + 69999 / 1000)
    { morphHost with
      _morphAnimationBuffer :=
        some ({ frameData := 0, numWeights := 40000, numFrames := 70000, frameLengthInMs := 1,
                frameIndex := 0, startTime := 1 }) }
    { frameData := 0, numWeights := 40000, numFrames := 70000, frameLengthInMs := 1,
      frameIndex := 0, startTime := 1 } 69999 rfl (show (0 : Int) ≠ -1 by decide)
    (show (1 : ℚ) ≠ 0 by norm_num) hq (show intMin ≤ (70000 : Int) - 1 by decide)
    (show ¬ (69999 : Int) > 70000 - 1 by decide) (show (69999 : Int) ≠ 0 by decide)
    (show intMax < (69999 : Int) * 40000 by decide)
  exact runMorph_second_undefined _ _ _ _ _ _ h1 h2

theorem runMorph_cons (now : TimePoint) (rest : List TimePoint) (a a1 : SceneAsset)
    (e : MorphEffect) (calls : List SetMorphWeights)
    (h : updateMorphAnimation now a = some (a1, e, calls)) :
    runMorph (now :: rest) a = (runMorph rest a1).map (fun rs => (rs.1, e :: rs.2)) := by
  simp only [runMorph, h]
  cases runMorph rest a1 <;> rfl

theorem runMorph_absent (ticks : List TimePoint) (a : SceneAsset)
    (hm : a._morphAnimationBuffer = none) :
    ∃ es, runMorph ticks a = some (a, es) ∧ ∀ e ∈ es, e = MorphEffect.idle := by
  induction ticks with
  | nil => exact ⟨[], rfl, by simp⟩
  | cons t ts ih =>
    obtain ⟨es, hes, hall⟩ := ih
    refine ⟨.idle :: es, ?_, ?_⟩
    · rw [runMorph_cons t ts a a .idle [] (updateMorphAnimation_absent t a hm), hes]
      rfl
    · intro e he
      rcases List.mem_cons.mp he with rfl | he'
      · rfl
      · exact hall e he'

theorem mem_framesApplied (f : Int) (es : List MorphEffect) :
    f ∈ framesApplied es ↔ ∃ w c, MorphEffect.applied f w c ∈ es := by
  unfold framesApplied
  rw [List.mem_filterMap]
  constructor
  · rintro ⟨e, he, hf⟩
    cases e with
    | idle => simp at hf
    | completed => simp at hf
    | applied g w c =>
      simp only [Option.some.injEq] at hf
      subst hf
      exact ⟨w, c, he⟩
  · rintro ⟨w, c, he⟩
    exact ⟨_, he, rfl⟩

theorem framesApplied_cons_idle (es : List MorphEffect) :
    framesApplied (MorphEffect.idle :: es) = framesApplied es := rfl

theorem framesApplied_cons_completed (es : List MorphEffect) :
    framesApplied (MorphEffect.completed :: es) = framesApplied es := rfl

theorem framesApplied_cons_applied (f w c : Int) (es : List MorphEffect) :
    framesApplied (MorphEffect.applied f w c :: es) = f :: framesApplied es := rfl

theorem framesApplied_of_idle (es : List MorphEffect) (h : ∀ e ∈ es, e = MorphEffect.idle) :
    framesApplied es = [] := by
  apply List.eq_nil_iff_forall_not_mem.mpr
  intro f hf
  obtain ⟨w, c, hwc⟩ := (mem_framesApplied f es).mp hf
  cases h _ hwc

theorem floor_frame_mono (start fl u v : ℚ) (hfl : 0 < fl) (hu : start ≤ u) (huv : u ≤ v) :
    ⌊frameQuotient start fl u⌋ ≤ ⌊frameQuotient start fl v⌋ :=
  Int.floor_le_floor (frameQuotient_mono start fl u v hfl hu huv)

/-- The offset of every frame of the buffer fits an `int` once that of the last frame does. -/
theorem offset_in_range (f numFrames numWeights : Int) (h0 : 0 ≤ f) (h1 : f ≤ numFrames - 1)
    (hlo : intMin ≤ (numFrames - 1) * numWeights) (hhi : (numFrames - 1) * numWeights ≤ intMax) :
    intMin ≤ f * numWeights ∧ f * numWeights ≤ intMax := by
  have hmin : intMin ≤ 0 := by decide
  have hmax : (0 : Int) ≤ intMax := by decide
  rcases le_or_lt 0 numWeights with hw | hw
  · have ha : 0 ≤ f * numWeights := mul_nonneg h0 hw
    have hb : f * numWeights ≤ (numFrames - 1) * numWeights :=
      mul_le_mul_of_nonneg_right h1 hw
    exact ⟨le_trans hmin ha, le_trans hb hhi⟩
  · have ha : f * numWeights ≤ 0 := mul_nonpos_of_nonneg_of_nonpos h0 hw.le
    have hb : (numFrames - 1) * numWeights ≤ f * numWeights :=
      mul_le_mul_of_nonpos_right h1 hw.le
    exact ⟨le_trans hlo hb, le_trans ha hmax⟩

/-- A started track with a positive frame length, ticked at non-decreasing times none of which
precedes its start, with every quotient below `2 ^ 31` and the offset of the last frame within
`int`: every tick is defined; the frames applied are strictly increasing and are exactly the
frames above the current one, up to the last, that some tick selects; they are read from
`frameData + frame * numWeights`; and the frame index of a surviving track stays in range. -/
theorem runMorph_started (ticks : List TimePoint) (a : SceneAsset) (m : MorphAnimationStatus)
    (hm : a._morphAnimationBuffer = some m) (hfl : 0 < m.frameLengthInMs)
    (h0 : 0 ≤ m.frameIndex) (hhi : m.frameIndex ≤ m.numFrames - 1)
    (hstart : ∀ u ∈ ticks, m.startTime ≤ u)
    (hcur : ∀ u ∈ ticks, m.frameIndex ≤ ⌊frameQuotient m.startTime m.frameLengthInMs u⌋)
    (hmono : ticks.Pairwise (· ≤ ·))
    (hq : ∀ u ∈ ticks, frameQuotient m.startTime m.frameLengthInMs u < 2147483648)
    (hplo : intMin ≤ (m.numFrames - 1) * m.numWeights)
    (hphi : (m.numFrames - 1) * m.numWeights ≤ intMax) :
    ∃ after es, runMorph ticks a = some (after, es) ∧
      (∀ f w c, MorphEffect.applied f w c ∈ es →
        m.frameIndex < f ∧ f ≤ m.numFrames - 1 ∧ w = m.frameData + f * m.numWeights ∧
          c = m.numWeights) ∧
      (framesApplied es).Pairwise (· < ·) ∧
      (∀ m1, after._morphAnimationBuffer = some m1 →
        m.frameIndex ≤ m1.frameIndex ∧ m1.frameIndex ≤ m.numFrames - 1) ∧
      (∀ k, k ∈ framesApplied es ↔
        (m.frameIndex < k ∧ k ≤ m.numFrames - 1 ∧
          ∃ u ∈ ticks, ⌊frameQuotient m.startTime m.frameLengthInMs u⌋ = k)) := by
  induction ticks generalizing a m with
  | nil =>
    refine ⟨a, [], rfl, by simp, by simp [framesApplied], ?_, ?_⟩
    · intro m1 hm1
      rw [hm] at hm1
      cases hm1
      exact ⟨le_refl _, hhi⟩
    · intro k
      simp [framesApplied]
  | cons t ts ih =>
    have hne : m.frameIndex ≠ -1 := by omega
    have hfl0 : m.frameLengthInMs ≠ 0 := ne_of_gt hfl
    have hnf : intMin ≤ m.numFrames - 1 := le_trans (by decide) (le_trans h0 hhi)
    have htstart : m.startTime ≤ t := hstart t (List.mem_cons_self t ts)
    have hframe := truncToInt_of_nonneg _
      (frameQuotient_nonneg m.startTime m.frameLengthInMs t hfl htstart)
      (hq t (List.mem_cons_self t ts))
    have hts : ts.Pairwise (· ≤ ·) := (List.pairwise_cons.mp hmono).2
    have htle : ∀ u ∈ ts, t ≤ u := (List.pairwise_cons.mp hmono).1
    have hstart' : ∀ u ∈ ts, m.startTime ≤ u := fun u hu => hstart u (List.mem_cons_of_mem t hu)
    have hcur' : ∀ u ∈ ts,
        m.frameIndex ≤ ⌊frameQuotient m.startTime m.frameLengthInMs u⌋ :=
      fun u hu => hcur u (List.mem_cons_of_mem t hu)
    have hq' : ∀ u ∈ ts, frameQuotient m.startTime m.frameLengthInMs u < 2147483648 :=
      fun u hu => hq u (List.mem_cons_of_mem t hu)
    have hFge : m.frameIndex ≤ ⌊frameQuotient m.startTime m.frameLengthInMs t⌋ :=
      hcur t (List.mem_cons_self t ts)
    have hlater : ∀ u ∈ ts, ⌊frameQuotient m.startTime m.frameLengthInMs t⌋
        ≤ ⌊frameQuotient m.startTime m.frameLengthInMs u⌋ :=
      fun u hu => floor_frame_mono m.startTime m.frameLengthInMs t u hfl htstart (htle u hu)
    by_cases hdone : ⌊frameQuotient m.startTime m.frameLengthInMs t⌋ > m.numFrames - 1
    · have hstep := updateMorphAnimation_release t a m _ hm hne hfl0 hframe hnf hdone
      obtain ⟨es, hes, hidle⟩ := runMorph_absent ts { a with _morphAnimationBuffer := none } rfl
      have hnil : framesApplied es = [] := framesApplied_of_idle es hidle
      refine ⟨{ a with _morphAnimationBuffer := none }, .completed :: es, ?_, ?_, ?_, ?_, ?_⟩
      · rw [runMorph_cons t ts a _ _ _ hstep, hes]; rfl
      · intro f w c hmem
        rcases List.mem_cons.mp hmem with h | h
        · cases h
        · cases hidle _ h
      · rw [framesApplied_cons_completed, hnil]; exact List.Pairwise.nil
      · intro m1 hm1; cases hm1
      · intro k
        rw [framesApplied_cons_completed, hnil]
        constructor
        · intro h; cases h
        · rintro ⟨_, hk, u, hu, huk⟩
          rcases List.mem_cons.mp hu with rfl | hu'
          · omega
          · have := hlater u hu'
            omega
    · by_cases hsame : ⌊frameQuotient m.startTime m.frameLengthInMs t⌋ = m.frameIndex
      · have hstep := updateMorphAnimation_same t a m _ hm hne hfl0 hframe hnf hdone hsame
        obtain ⟨after, es, hes, happ, hpw, hbuf, hmem⟩ :=
          ih a m hm hfl h0 hhi hstart' hcur' hts hq' hplo hphi
        refine ⟨after, .idle :: es, ?_, ?_, ?_, hbuf, ?_⟩
        · rw [runMorph_cons t ts a _ _ _ hstep, hes]; rfl
        · intro f w c hmem'
          rcases List.mem_cons.mp hmem' with h | h
          · cases h
          · exact happ f w c h
        · rw [framesApplied_cons_idle]; exact hpw
        · intro k
          rw [framesApplied_cons_idle, hmem k]
          constructor
          · rintro ⟨h1, h2, u, hu, huk⟩
            exact ⟨h1, h2, u, List.mem_cons_of_mem t hu, huk⟩
          · rintro ⟨h1, h2, u, hu, huk⟩
            rcases List.mem_cons.mp hu with rfl | hu'
            · omega
            · exact ⟨h1, h2, u, hu', huk⟩
      · have hFle : ⌊frameQuotient m.startTime m.frameLengthInMs t⌋ ≤ m.numFrames - 1 := by
          omega
        have hFgt : m.frameIndex < ⌊frameQuotient m.startTime m.frameLengthInMs t⌋ :=
          lt_of_le_of_ne hFge (Ne.symm hsame)
        obtain ⟨hlo, hhi'⟩ := offset_in_range _ m.numFrames m.numWeights (le_trans h0 hFge) hFle
          hplo hphi
        have hstep := updateMorphAnimation_apply t a m _ hm hne hfl0 hframe hnf hdone hsame
          hlo hhi'
        obtain ⟨after, es, hes, happ, hpw, hbuf, hmem⟩ :=
          ih { a with
               _morphAnimationBuffer := some { m with
                 frameIndex := ⌊frameQuotient m.startTime m.frameLengthInMs t⌋ } }
            { m with frameIndex := ⌊frameQuotient m.startTime m.frameLengthInMs t⌋ }
            rfl hfl (le_trans h0 hFge) hFle hstart' hlater hts hq' hplo hphi
        refine ⟨after,
          .applied ⌊frameQuotient m.startTime m.frameLengthInMs t⌋
            (m.frameData + ⌊frameQuotient m.startTime m.frameLengthInMs t⌋ * m.numWeights)
            m.numWeights :: es, ?_, ?_, ?_, ?_, ?_⟩
        · rw [runMorph_cons t ts a _ _ _ hstep, hes]; rfl
        · intro f w c hmem'
          rcases List.mem_cons.mp hmem' with h | h
          · cases h
            exact ⟨hFgt, hFle, rfl, rfl⟩
          · obtain ⟨h1, h2, h3, h4⟩ := happ f w c h
            exact ⟨lt_trans hFgt h1, h2, h3, h4⟩
        · rw [framesApplied_cons_applied]
          refine List.pairwise_cons.mpr ⟨?_, hpw⟩
          intro g hg
          obtain ⟨w, c, hwc⟩ := (mem_framesApplied g es).mp hg
          exact (happ g w c hwc).1
        · intro m1 hm1
          obtain ⟨h1, h2⟩ := hbuf m1 hm1
          exact ⟨le_trans hFge h1, h2⟩
        · intro k
          rw [framesApplied_cons_applied, List.mem_cons, hmem k]
          constructor
          · rintro (rfl | ⟨h1, h2, u, hu, huk⟩)
            · exact ⟨hFgt, hFle, t, List.mem_cons_self t ts, rfl⟩
            · exact ⟨lt_trans hFgt h1, h2, u, List.mem_cons_of_mem t hu, huk⟩
          · rintro ⟨h1, h2, u, hu, huk⟩
            rcases List.mem_cons.mp hu with rfl | hu'
            · exact Or.inl huk.symm
            · rcases eq_or_lt_of_le (hlater u hu') with heq | hlt
              · exact Or.inl (by rw [← huk, ← heq])
              · exact Or.inr ⟨by rw [← huk]; exact hlt, h2, u, hu', huk⟩

/-- A track fresh from `animateWeights` with at least one frame and a positive frame length,
ticked first at `t0` and then at the times `rest`, non-decreasing, with every quotient below
`2 ^ 31` and the offset of the last frame within `int`. -/
theorem runMorph_fresh (t0 : TimePoint) (rest : List TimePoint) (a : SceneAsset)
    (data numWeights numFrames : Int) (frameLengthInMs : ℚ)
    (hnf : 1 ≤ numFrames) (hfl : 0 < frameLengthInMs)
    (hmono : (t0 :: rest).Pairwise (· ≤ ·))
    (hq : ∀ u ∈ rest, frameQuotient t0 frameLengthInMs u < 2147483648)
    (hplo : intMin ≤ (numFrames - 1) * numWeights)
    (hphi : (numFrames - 1) * numWeights ≤ intMax) :
    ∃ after es,
      runMorph (t0 :: rest) (animateWeights data numWeights numFrames frameLengthInMs a)
        = some (after, es) ∧
      (∀ f w c, MorphEffect.applied f w c ∈ es →
        0 ≤ f ∧ f ≤ numFrames - 1 ∧ w = data + f * numWeights ∧ c = numWeights) ∧
      (framesApplied es).Pairwise (· < ·) ∧
      (∀ m1, after._morphAnimationBuffer = some m1 →
        0 ≤ m1.frameIndex ∧ m1.frameIndex ≤ numFrames - 1) ∧
      (∀ k, k ∈ framesApplied es ↔
        (k = 0 ∨ (0 < k ∧ k ≤ numFrames - 1 ∧
          ∃ u ∈ rest, ⌊frameQuotient t0 frameLengthInMs u⌋ = k))) := by
  have hfirst := updateMorphAnimation_first t0
    (animateWeights data numWeights numFrames frameLengthInMs a)
    (MorphAnimationStatus.new data numWeights numFrames frameLengthInMs) rfl rfl
  have htle : ∀ u ∈ rest, t0 ≤ u := (List.pairwise_cons.mp hmono).1
  obtain ⟨after, es, hes, happ, hpw, hbuf, hmem⟩ :=
    runMorph_started rest
      { animateWeights data numWeights numFrames frameLengthInMs a with
        _morphAnimationBuffer := some
          { MorphAnimationStatus.new data numWeights numFrames frameLengthInMs with
            frameIndex := 0, startTime := t0 } }
      { MorphAnimationStatus.new data numWeights numFrames frameLengthInMs with
        frameIndex := 0, startTime := t0 }
      rfl hfl (le_refl _) (by show (0 : Int) ≤ numFrames - 1; omega) htle
      (fun u hu => Int.floor_nonneg.mpr (frameQuotient_nonneg t0 _ u hfl (htle u hu)))
      (List.pairwise_cons.mp hmono).2 hq hplo hphi
  refine ⟨after, .applied 0 data numWeights :: es, ?_, ?_, ?_, hbuf, ?_⟩
  · rw [runMorph_cons t0 rest _ _ _ _ hfirst, hes]; rfl
  · intro f w c hmem'
    rcases List.mem_cons.mp hmem' with h | h
    · cases h
      exact ⟨le_refl _, by omega, by simp, rfl⟩
    · obtain ⟨h1, h2, h3, h4⟩ := happ f w c h
      exact ⟨le_of_lt h1, h2, h3, h4⟩
  · rw [framesApplied_cons_applied]
    refine List.pairwise_cons.mpr ⟨?_, hpw⟩
    intro g hg
    obtain ⟨w, c, hwc⟩ := (mem_framesApplied g es).mp hg
    exact (happ g w c hwc).1
  · intro k
    rw [framesApplied_cons_applied, List.mem_cons, hmem k]
    exact Iff.rfl

theorem runMorph_one (t0 : TimePoint) (a a1 : SceneAsset) (e : MorphEffect)
    (calls : List SetMorphWeights) (h1 : updateMorphAnimation t0 a = some (a1, e, calls)) :
    runMorph [t0] a = some (a1, [e]) := by
  simp only [runMorph, h1]

theorem runMorph_two (t0 t1 : TimePoint) (a a1 a2 : SceneAsset) (e1 e2 : MorphEffect)
    (c1 c2 : List SetMorphWeights) (h1 : updateMorphAnimation t0 a = some (a1, e1, c1))
    (h2 : updateMorphAnimation t1 a1 = some (a2, e2, c2)) :
    runMorph [t0, t1] a = some (a2, [e1, e2]) := by
  simp only [runMorph, h1, h2]

theorem frameQuotient_backwards : frameQuotient 1 100 (3 / 4) = -5 / 2 := by
  unfold frameQuotient elapsedMs
  have h1 : ((3 / 4 : ℚ) - 1) * 1000000000 = -250000000 := by norm_num
  have h2 : toDouble (-250000000) = -250000000 := by
    rw [toDouble_eq _ 27 (-250000000 * 2 ^ 25) (by norm_num [abs_of_neg])
      (by norm_num [abs_of_neg]) (by norm_num) (by norm_num [abs_lt])]
    norm_num
  have h3 : (-250000000 : ℚ) / 1000000 = -250 := by norm_num
  have h4 : toDouble (-250) = -250 := by
    rw [toDouble_eq _ 7 (-250 * 2 ^ 45) (by norm_num [abs_of_neg])
      (by norm_num [abs_of_neg]) (by norm_num) (by norm_num [abs_lt])]
    norm_num
  have h5 : (-250 : ℚ) / 100 = -5 / 2 := by norm_num
  rw [h1, h2, h3, h4, h5, toDouble_neg_five_halves]

theorem frameQuotient_negative_length : frameQuotient 1 (-100) (5 / 4) = -5 / 2 := by
  unfold frameQuotient
  rw [elapsedMs_whole 1 (5 / 4) 250 (by norm_num) (by push_cast; norm_num)]
  have h : ((250 : Nat) : ℚ) / (-100) = -5 / 2 := by norm_num
  rw [h, toDouble_neg_five_halves]

theorem frameQuotient_second_frame : frameQuotient 1 100 (23 / 20) = 3 / 2 := by
  unfold frameQuotient
  rw [elapsedMs_whole 1 (23 / 20) 150 (by norm_num) (by push_cast; norm_num)]
  have h : ((150 : Nat) : ℚ) / 100 = 3 / 2 := by norm_num
  rw [h, toDouble_three_halves]

/-- C7, as stated, fails.  (1) With `numFrames = 0` the first tick applies weights from offset
`0` of a buffer of length `0 * 2 = 0` and leaves the track active with frame index `0`, above
`numFrames - 1 = -1`.  (2) With three frames of `100` ms, a tick at `1` s followed by a tick at
`0.75` s leaves the track active with frame index `-2` and reads weights from offset `-4`.
(3) The same happens at non-decreasing times `1` s and `1.25` s when the frame length is
`-100` ms.  (4) With `numWeights = -2`, ticks at `1` s and `1.15` s read the second frame from
offset `-2`.  (5) With a frame length of `1` ms, a second tick `2 ^ 31` ms after the first
leaves the conversion of the quotient to `int` undefined.  (6) With `70000` frames of `40000`
weights the offset `69999 * 40000` of the last frame overflows an `int`. -/
theorem morph_frame_index_out_of_range :
    (runMorph [1] (animateWeights 0 2 0 100 morphHost)
      = some ({ morphHost with
                _morphAnimationBuffer :=
                  some ({ frameData := 0, numWeights := 2, numFrames := 0,
                          frameLengthInMs := 100, frameIndex := 0, startTime := 1 }) },
              [MorphEffect.applied 0 0 2]) ∧
      ¬ ((0 : Int) ≤ 0 - 1)) ∧
    (runMorph [1, 3 / 4] (animateWeights 0 2 3 100 morphHost)
      = some ({ morphHost with
                _morphAnimationBuffer :=
                  some ({ frameData := 0, numWeights := 2, numFrames := 3,
                          frameLengthInMs := 100, frameIndex := -2, startTime := 1 }) },
              [MorphEffect.applied 0 0 2, MorphEffect.applied (-2) (0 + -2 * 2) 2]) ∧
      ¬ ((-1 : Int) ≤ -2)) ∧
    (runMorph [1, 5 / 4] (animateWeights 0 2 3 (-100) morphHost)
      = some ({ morphHost with
                _morphAnimationBuffer :=
                  some ({ frameData := 0, numWeights := 2, numFrames := 3,
                          frameLengthInMs := -100, frameIndex := -2, startTime := 1 }) },
              [MorphEffect.applied 0 0 2, MorphEffect.applied (-2) (0 + -2 * 2) 2]) ∧
      [(1 : ℚ), 5 / 4].Pairwise (· ≤ ·)) ∧
    (runMorph [1, 23 / 20] (animateWeights 0 (-2) 3 100 morphHost)
      = some ({ morphHost with
                _morphAnimationBuffer :=
                  some ({ frameData := 0, numWeights := -2, numFrames := 3,
                          frameLengthInMs := 100, frameIndex := 1, startTime := 1 }) },
              [MorphEffect.applied 0 0 (-2), MorphEffect.applied 1 (0 + 1 * -2) (-2)]) ∧
      [(1 : ℚ), 23 / 20].Pairwise (· ≤ ·) ∧ ¬ ((0 : Int) ≤ 0 + 1 * -2)) ∧
    runMorph [1, 1 + 2147483648 / 1000] (animateWeights 0 2 3 1 morphHost) = none ∧
    runMorph [1, 1 + 69999 / 1000] (animateWeights 0 40000 70000 1 morphHost) = none := by
  have h1 := updateMorphAnimation_first 1 (animateWeights 0 2 0 100 morphHost)
    (MorphAnimationStatus.new 0 2 0 100) rfl rfl
  have h2 := updateMorphAnimation_first 1 (animateWeights 0 2 3 100 morphHost)
    (MorphAnimationStatus.new 0 2 3 100) rfl rfl
  have h4 := updateMorphAnimation_first 1 (animateWeights 0 2 3 (-100) morphHost)
    (MorphAnimationStatus.new 0 2 3 (-100)) rfl rfl
  have h6 := updateMorphAnimation_first 1 (animateWeights 0 (-2) 3 100 morphHost)
    (MorphAnimationStatus.new 0 (-2) 3 100) rfl rfl
  have n0 : (0 : Int) ≠ -1 := by decide
  have nfl : (100 : ℚ) ≠ 0 := by norm_num
  have nfl' : (-100 : ℚ) ≠ 0 := by norm_num
  have h3 := updateMorphAnimation_apply (3 / 4)
    { morphHost with
      _morphAnimationBuffer :=
        some ({ frameData := 0, numWeights := 2, numFrames := 3, frameLengthInMs := 100,
                frameIndex := 0, startTime := 1 }) }
    { frameData := 0, numWeights := 2, numFrames := 3, frameLengthInMs := 100,
      frameIndex := 0, startTime := 1 } (-2) rfl n0 nfl
    (by rw [frameQuotient_backwards]; exact truncToInt_neg_five_halves)
    (show intMin ≤ (3 : Int) - 1 by decide) (show ¬ (-2 : Int) > 3 - 1 by decide)
    (show (-2 : Int) ≠ 0 by decide) (show intMin ≤ (-2 : Int) * 2 by decide)
    (show (-2 : Int) * 2 ≤ intMax by decide)
  have h5 := updateMorphAnimation_apply (5 / 4)
    { morphHost with
      _morphAnimationBuffer :=
        some ({ frameData := 0, numWeights := 2, numFrames := 3, frameLengthInMs := -100,
                frameIndex := 0, startTime := 1 }) }
    { frameData := 0, numWeights := 2, numFrames := 3, frameLengthInMs := -100,
      frameIndex := 0, startTime := 1 } (-2) rfl n0 nfl'
    (by rw [frameQuotient_negative_length]; exact truncToInt_neg_five_halves)
    (show intMin ≤ (3 : Int) - 1 by decide) (show ¬ (-2 : Int) > 3 - 1 by decide)
    (show (-2 : Int) ≠ 0 by decide) (show intMin ≤ (-2 : Int) * 2 by decide)
    (show (-2 : Int) * 2 ≤ intMax by decide)
  have h7 := updateMorphAnimation_apply (23 / 20)
    { morphHost with
      _morphAnimationBuffer :=
        some ({ frameData := 0, numWeights := -2, numFrames := 3, frameLengthInMs := 100,
                frameIndex := 0, startTime := 1 }) }
    { frameData := 0, numWeights := -2, numFrames := 3, frameLengthInMs := 100,
      frameIndex := 0, startTime := 1 } 1 rfl n0 nfl
    (by rw [frameQuotient_second_frame]; exact truncToInt_three_halves)
    (show intMin ≤ (3 : Int) - 1 by decide) (show ¬ (1 : Int) > 3 - 1 by decide)
    (show (1 : Int) ≠ 0 by decide) (show intMin ≤ (1 : Int) * -2 by decide)
    (show (1 : Int) * -2 ≤ intMax by decide)
  refine ⟨⟨?_, by decide⟩, ⟨?_, by decide⟩, ⟨?_, by norm_num⟩, ⟨?_, by norm_num, by decide⟩,
    morph_conversion_undefined, morph_offset_overflow⟩
  · exact runMorph_one _ _ _ _ _ h1
  · exact runMorph_two _ _ _ _ _ _ _ _ _ h2 h3
  · exact runMorph_two _ _ _ _ _ _ _ _ _ h4 h5
  · exact runMorph_two _ _ _ _ _ _ _ _ _ h6 h7

/-- C7, amended.  For a morph track created by `animateWeights` with `numFrames >= 1`,
`numWeights >= 0`, the offset `(numFrames - 1) * numWeights` of the last frame within `int`
and `frameLengthInMs > 0`, ticked first at `t0` and then at `rest`, non-decreasing, with every
computed quotient below `2 ^ 31`: the new track has frame index `-1`, every tick is defined,
a track that is still active afterwards has its frame index in `[-1, numFrames - 1]`, and
every `applyWeights` call reads `numWeights` floats from `data + frame * numWeights` with
`0 <= frame <= numFrames - 1`, inside the `numFrames * numWeights` floats starting at
`data`. -/
theorem morph_frame_index_in_range (t0 : TimePoint) (rest : List TimePoint) (a : SceneAsset)
    (data numWeights numFrames : Int) (frameLengthInMs : ℚ)
    (hnf : 1 ≤ numFrames) (hnw : 0 ≤ numWeights)
    (hphi : (numFrames - 1) * numWeights ≤ intMax) (hfl : 0 < frameLengthInMs)
    (hmono : (t0 :: rest).Pairwise (· ≤ ·))
    (hq : ∀ u ∈ rest, frameQuotient t0 frameLengthInMs u < 2147483648) :
    (∃ m0, (animateWeights data numWeights numFrames frameLengthInMs a)._morphAnimationBuffer
        = some m0 ∧ m0.frameIndex = -1) ∧
    ∃ after es,
      runMorph (t0 :: rest) (animateWeights data numWeights numFrames frameLengthInMs a)
        = some (after, es) ∧
      (∀ m1, after._morphAnimationBuffer = some m1 →
        -1 ≤ m1.frameIndex ∧ m1.frameIndex ≤ numFrames - 1) ∧
      (∀ f w c, MorphEffect.applied f w c ∈ es →
        w = data + f * numWeights ∧ c = numWeights ∧ 0 ≤ f ∧ f ≤ numFrames - 1 ∧
          data ≤ w ∧ w + c ≤ data + numFrames * numWeights) := by
  have hplo : intMin ≤ (numFrames - 1) * numWeights :=
    le_trans (show intMin ≤ 0 by decide) (mul_nonneg (by omega) hnw)
  obtain ⟨after, es, hes, happ, _, hbuf, _⟩ :=
    runMorph_fresh t0 rest a data numWeights numFrames frameLengthInMs hnf hfl hmono hq hplo hphi
  refine ⟨⟨_, rfl, rfl⟩, after, es, hes, ?_, ?_⟩
  · intro m1 hm1
    obtain ⟨h1, h2⟩ := hbuf m1 hm1
    exact ⟨by omega, h2⟩
  · intro f w c hmem
    obtain ⟨hf0, hf1, hw, hc⟩ := happ f w c hmem
    refine ⟨hw, hc, hf0, hf1, ?_, ?_⟩
    · rw [hw]
      have := mul_nonneg hf0 hnw
      omega
    · rw [hw, hc]
      have h : (f + 1) * numWeights ≤ numFrames * numWeights :=
        mul_le_mul_of_nonneg_right (by omega) hnw
      have h' : (f + 1) * numWeights = f * numWeights + numWeights := by ring
      omega

/-- C7 amended, at a three-frame track ticked at `1` and `1.15` seconds, which is still
active afterwards. -/
theorem morph_frame_index_in_range_witness :
    (∃ m0, (animateWeights 0 2 3 100 morphHost)._morphAnimationBuffer = some m0 ∧
      m0.frameIndex = -1) ∧
    ∃ after es,
      runMorph (1 :: [1 + 3 / 20]) (animateWeights 0 2 3 100 morphHost)
        = some (after, es) ∧
      (∀ m1, after._morphAnimationBuffer = some m1 →
        -1 ≤ m1.frameIndex ∧ m1.frameIndex ≤ (3 : Int) - 1) ∧
      (∀ f w c, MorphEffect.applied f w c ∈ es →
        w = 0 + f * 2 ∧ c = 2 ∧ 0 ≤ f ∧ f ≤ (3 : Int) - 1 ∧
          (0 : Int) ≤ w ∧ w + c ≤ 0 + 3 * 2) :=
  morph_frame_index_in_range 1 [1 + 3 / 20] morphHost 0 2 3 100
    (by decide) (by decide) (by decide) (by norm_num) (by norm_num)
    (by
      intro u hu
      rw [List.mem_singleton.mp hu, frameQuotient_150_value]
      norm_num)

end polyvox

namespace polyvox

/-! ### Texture loading -/

/-- On an invalid image `loadTexture` returns right after the `Log` line: the old texture is
destroyed, the handle is absent, the fetch callback ran once, the release callback not at
all. -/
theorem loadTexture_invalid (_loadResource : String → ResourceBuffer)
    (decode : List Nat → LinearImage) (materialInstanceCount : Nat) (resourcePath : String)
    (a : SceneAsset)
    (hinvalid : (decode ((_loadResource resourcePath).data.take
      (_loadResource resourcePath).size)).isValid = false) :
    ∃ after calls,
      loadTexture _loadResource decode materialInstanceCount resourcePath a
        = some (after, calls) ∧
      after._texture = none ∧ (∀ t, a._texture = some t → TextureCall.destroy t ∈ calls) ∧
      fetchCount calls = 1 ∧ releaseCount calls = 0 := by
  refine ⟨{ a with _texture := none },
    (match a._texture with
      | some texture => [TextureCall.destroy texture]
      | none => []) ++
      [TextureCall.loadResource resourcePath, TextureCall.logInvalidImage resourcePath],
    by simp only [loadTexture, hinvalid, if_true], rfl, ?_, ?_, ?_⟩
  · intro t ht
    simp [ht]
  · cases a._texture <;> simp [fetchCount]
  · cases a._texture <;> simp [releaseCount]

/-- On a valid image, with a material instance to bind to, `loadTexture` calls the release
callback once, with the id of the fetched buffer. -/
theorem loadTexture_valid (_loadResource : String → ResourceBuffer)
    (decode : List Nat → LinearImage) (materialInstanceCount : Nat) (resourcePath : String)
    (a : SceneAsset) (hcount : materialInstanceCount ≠ 0)
    (hvalid : (decode ((_loadResource resourcePath).data.take
      (_loadResource resourcePath).size)).isValid = true) :
    ∃ after calls,
      loadTexture _loadResource decode materialInstanceCount resourcePath a
        = some (after, calls) ∧
      fetchCount calls = 1 ∧ releaseCount calls = 1 ∧
      TextureCall.freeResource (_loadResource resourcePath).id ∈ calls := by
  have hstep : ∃ r, loadTexture _loadResource decode materialInstanceCount resourcePath a
      = some r ∧ fetchCount r.2 = 1 ∧ releaseCount r.2 = 1 ∧
        TextureCall.freeResource (_loadResource resourcePath).id ∈ r.2 := by
    simp only [loadTexture, hvalid, setTexture, if_neg hcount]
    refine ⟨_, rfl, ?_, ?_, ?_⟩
    · cases a._texture <;> simp [fetchCount]
    · cases a._texture <;> simp [releaseCount]
    · simp
  obtain ⟨r, hr, h1, h2, h3⟩ := hstep
  exact ⟨r.1, r.2, hr, h1, h2, h3⟩

/-- C5, the failing input.  The fetch callback returns a zero-length buffer with id `7`, which
the decoder rejects; the asset owns a texture.  `loadTexture` destroys the old texture, calls
the fetch callback once and leaves the handle absent, but it never calls the release
callback: `freeResource 7` is not among its calls. -/
theorem loadTexture_invalid_skips_release :
    loadTexture fetchEmpty decodeNonEmpty 1 "texture.png" texturedAsset
      = some ({ texturedAsset with _texture := none },
          [TextureCall.destroy { width := 4, height := 4, rgb := false },
           TextureCall.loadResource "texture.png",
           TextureCall.logInvalidImage "texture.png"]) ∧
    releaseCount [TextureCall.destroy { width := 4, height := 4, rgb := false },
      TextureCall.loadResource "texture.png", TextureCall.logInvalidImage "texture.png"] = 0 ∧
    TextureCall.freeResource 7 ∉
      [TextureCall.destroy { width := 4, height := 4, rgb := false },
       TextureCall.loadResource "texture.png", TextureCall.logInvalidImage "texture.png"] := by
  refine ⟨rfl, rfl, by simp⟩

end polyvox

namespace thermion

/-! ### Camera projection -/

/-- Whatever kind is requested, the camera is given `PERSPECTIVE`; the six bounds are
forwarded unchanged. -/
theorem Camera_setProjection_always_perspective (projection : Projection)
    (left right bottom top near far : ℚ) :
    Camera_setProjection projection left right bottom top near far =
      { projection := some .PERSPECTIVE, left := left, right := right, bottom := bottom,
        top := top, near := near, far := far } := by
  cases projection <;> rfl

/-- C10, the failing input.  For `Projection::Orthographic` the assignment of `ORTHO` falls
through into the `Perspective` case, so the camera's `setProjection` is called with
`PERSPECTIVE`, not `ORTHO`; the six bounds are forwarded unchanged. -/
theorem Camera_setProjection_orthographic_falls_through
    (left right bottom top near far : ℚ) :
    Camera_setProjection .Orthographic left right bottom top near far =
      { projection := some .PERSPECTIVE, left := left, right := right, bottom := bottom,
        top := top, near := near, far := far } ∧
    (Camera_setProjection .Orthographic left right bottom top near far).projection
      ≠ some .ORTHO := by
  constructor
  · rfl
  · intro h
    cases h

end thermion
